import Mathlib

/-!
Verification of the Sollumz fragment/cloth export pipeline and related data
handling, as a shallow embedding in Lean.  Floating point numbers of the Python
source are modelled by exact rationals; Python lists by `List`; Python dicts and
sets keeping only membership/order information actually used by the code.
-/

namespace Sollumz

/-! ## Basic vector and matrix model (mathutils `Vector` / `Matrix` over ℚ) -/

structure Vec3 where
  x : ℚ
  y : ℚ
  z : ℚ
deriving DecidableEq

instance : Inhabited Vec3 := ⟨⟨0, 0, 0⟩⟩

def Vec3.add (a b : Vec3) : Vec3 := ⟨a.x + b.x, a.y + b.y, a.z + b.z⟩

def Vec3.zero : Vec3 := ⟨0, 0, 0⟩

instance : Zero Vec3 := ⟨Vec3.zero⟩

instance : Add Vec3 := ⟨Vec3.add⟩

instance : AddCommMonoid Vec3 where
  add_assoc a b c := by
    show Vec3.add (Vec3.add a b) c = Vec3.add a (Vec3.add b c)
    simp only [Vec3.add, Vec3.mk.injEq]
    refine ⟨?_, ?_, ?_⟩ <;> ring
  zero_add a := by
    show Vec3.add Vec3.zero a = a
    simp only [Vec3.add, Vec3.zero, zero_add]
  add_zero a := by
    show Vec3.add a Vec3.zero = a
    simp only [Vec3.add, Vec3.zero, add_zero]
  add_comm a b := by
    show Vec3.add a b = Vec3.add b a
    simp only [Vec3.add, Vec3.mk.injEq]
    refine ⟨?_, ?_, ?_⟩ <;> ring
  nsmul := nsmulRec
  nsmul_zero := fun _ => rfl
  nsmul_succ := fun _ _ => rfl

theorem Vec3.add_def (a b : Vec3) :
    a + b = ⟨a.x + b.x, a.y + b.y, a.z + b.z⟩ := rfl

theorem Vec3.zero_def : (0 : Vec3) = ⟨0, 0, 0⟩ := rfl

/-- Scalar multiplication `v * q` (componentwise, as mathutils does). -/
def Vec3.smul (a : Vec3) (q : ℚ) : Vec3 := ⟨a.x * q, a.y * q, a.z * q⟩

/-- Componentwise division `v / q` (mathutils `Vector` divided by a scalar). -/
def Vec3.divQ (a : Vec3) (q : ℚ) : Vec3 := ⟨a.x / q, a.y / q, a.z / q⟩

def Vec3.sub (a b : Vec3) : Vec3 := ⟨a.x - b.x, a.y - b.y, a.z - b.z⟩

/-- mathutils `Vector.length_squared`. -/
def Vec3.lengthSquared (a : Vec3) : ℚ := a.x * a.x + a.y * a.y + a.z * a.z

structure Vec4 where
  x : ℚ
  y : ℚ
  z : ℚ
  w : ℚ
deriving DecidableEq

/-- Row-major 4x4 matrix, as mathutils `Matrix`. -/
structure Mat4 where
  r0 : Vec4
  r1 : Vec4
  r2 : Vec4
  r3 : Vec4
deriving DecidableEq

def Mat4.transposed (m : Mat4) : Mat4 :=
  ⟨⟨m.r0.x, m.r1.x, m.r2.x, m.r3.x⟩,
   ⟨m.r0.y, m.r1.y, m.r2.y, m.r3.y⟩,
   ⟨m.r0.z, m.r1.z, m.r2.z, m.r3.z⟩,
   ⟨m.r0.w, m.r1.w, m.r2.w, m.r3.w⟩⟩

/-- mathutils 4x4 matrix multiplied by a 3D vector: the vector is extended with
`w = 1` and the result truncated back to 3D. -/
def Mat4.mulVec3 (m : Mat4) (v : Vec3) : Vec3 :=
  ⟨m.r0.x * v.x + m.r0.y * v.y + m.r0.z * v.z + m.r0.w,
   m.r1.x * v.x + m.r1.y * v.y + m.r1.z * v.z + m.r1.w,
   m.r2.x * v.x + m.r2.y * v.y + m.r2.z * v.z + m.r2.w⟩

def Mat4.identity : Mat4 :=
  ⟨⟨1, 0, 0, 0⟩, ⟨0, 1, 0, 0⟩, ⟨0, 0, 1, 0⟩, ⟨0, 0, 0, 1⟩⟩

/-! ## Fragment physics data model (the fields used by yftexport.py) -/

/-- A skeleton bone: the numeric `tag` is the stable cross-reference key, the
`flags` hold flag names such as LimitRotation/LimitTranslation. -/
structure Bone where
  tag : Nat
  flags : List String
deriving DecidableEq

/-- A rotation or translation limit entry of `Drawable.joints`. -/
structure JointLimit where
  bone_id : Nat
deriving DecidableEq

/-- A child of `Archetype.bounds` (a collision bound): only the fields read by
the transform computations are modelled. -/
structure BoundChild where
  composite_transform : Mat4
  sphere_center : Vec3
deriving DecidableEq

structure PhysicsChild where
  group_index : Nat
  bone_tag : Nat
  pristine_mass : ℚ
deriving DecidableEq

instance : Inhabited PhysicsChild := ⟨⟨0, 0, 0⟩⟩

structure PhysicsGroup where
  parent_index : Nat
deriving DecidableEq

instance : Inhabited PhysicsGroup := ⟨⟨255⟩⟩

/-! ## `sort_cols_and_children` (yftexport.py lines 286-318)

The Python groups child indices by `child.group_index` in a dict (values keep
the order of first appearance, i.e. ascending child index), sorts the dict by
key, concatenates the index lists into a permutation, and applies that
permutation to both `lod_xml.children` and `lod_xml.archetype.bounds.children`.
-/

/-- The distinct group indices occurring among `children`, in ascending order:
`dict(sorted(children_by_group.items()))` visits keys ascending. -/
def sortedGroupKeys (children : List PhysicsChild) : List Nat :=
  List.insertionSort (· ≤ ·) (children.map (fun c => c.group_index)).dedup

/-- The permutation (list of pre-sort indices in post-sort order) built by
`sort_cols_and_children`: for each group key in ascending order, the indices of
the children of that group in their original order. -/
def childSortPerm (children : List PhysicsChild) : List Nat :=
  (sortedGroupKeys children).flatMap
    (fun g => (List.range children.length).filter
      (fun i => decide ((children.getD i default).group_index = g)))

/-- `sort_cols_and_children`: returns the reordered `children` and
`archetype.bounds.children` lists (the function returns early when either list
is empty). -/
def sort_cols_and_children {β : Type} [Inhabited β]
    (children : List PhysicsChild) (bounds : List β) :
    List PhysicsChild × List β :=
  if children.isEmpty || bounds.isEmpty then (children, bounds)
  else
    let perm := childSortPerm children
    (perm.map (fun i => children.getD i default),
     perm.map (fun i => bounds.getD i default))

/-! ## `calculate_group_masses` / `calculate_archetype_mass_inertia` -/

/-- Python's builtin `sum` over a list of floats: a left fold starting at 0. -/
def pySum (l : List ℚ) : ℚ := l.foldl (· + ·) 0

/-- `calculate_archetype_mass_inertia` (yftexport.py lines 377-395), restricted
to the archetype `mass` and `mass_inv` fields the claim is about (the inertia
tensor combination lives in a module outside the sources).  Returns
`(arch_xml.mass, arch_xml.mass_inv)`. -/
def calculate_archetype_mass_inertia (children : List PhysicsChild) : ℚ × ℚ :=
  let masses := children.map (fun c => c.pristine_mass)
  let mass := pySum masses
  (mass, if mass ≠ 0 then 1 / mass else 0)

theorem pySum_eq_sum (l : List ℚ) : pySum l = l.sum := by
  rw [pySum, List.sum_eq_foldl]

/-- C4: after `calculate_archetype_mass_inertia` the archetype mass is the sum
of the children's pristine masses, and `mass_inv` is `0` when that sum is `0`
and `1/mass` otherwise; a total mass of `0` takes the guarded branch instead of
dividing. -/
theorem calculate_archetype_mass_inertia_spec (children : List PhysicsChild) :
    (calculate_archetype_mass_inertia children).1 =
      (children.map (fun c => c.pristine_mass)).sum ∧
    (calculate_archetype_mass_inertia children).2 =
      (if (children.map (fun c => c.pristine_mass)).sum = 0 then 0
       else 1 / (children.map (fun c => c.pristine_mass)).sum) := by
  constructor
  · simp [calculate_archetype_mass_inertia, pySum_eq_sum]
  · simp only [calculate_archetype_mass_inertia, pySum_eq_sum]
    by_cases h : (children.map (fun c => c.pristine_mass)).sum = 0 <;> simp [h]

/-! ### Lemmas about `childSortPerm` -/

theorem getD_mem_of_lt {α : Type} [Inhabited α] (l : List α) (i : Nat)
    (h : i < l.length) : l.getD i default ∈ l := by
  rw [List.getD_eq_getElem l default h]
  exact List.getElem_mem h

theorem pairwise_flatMap_of {α β : Type} {P : β → β → Prop} {f : α → List β} :
    ∀ {l : List α}, l.Pairwise (fun a b => ∀ x ∈ f a, ∀ y ∈ f b, P x y) →
      (∀ a ∈ l, (f a).Pairwise P) → (l.flatMap f).Pairwise P
  | [], _, _ => by simp
  | a :: l, hp, hall => by
    rw [List.flatMap_cons, List.pairwise_append]
    obtain ⟨ha, hp⟩ := List.pairwise_cons.mp hp
    refine ⟨hall a (by simp), pairwise_flatMap_of hp
      (fun b hb => hall b (List.mem_cons_of_mem _ hb)), ?_⟩
    intro x hx y hy
    obtain ⟨b, hb, hyb⟩ := List.mem_flatMap.mp hy
    exact ha b hb x hx y hyb

theorem sortedGroupKeys_nodup (children : List PhysicsChild) :
    (sortedGroupKeys children).Nodup :=
  (List.perm_insertionSort _ _).nodup_iff.mpr (List.nodup_dedup _)

theorem sortedGroupKeys_sorted (children : List PhysicsChild) :
    List.Sorted (· ≤ ·) (sortedGroupKeys children) :=
  List.sorted_insertionSort _ _

theorem mem_sortedGroupKeys (children : List PhysicsChild) (g : Nat) :
    g ∈ sortedGroupKeys children ↔
      g ∈ children.map (fun c => c.group_index) :=
  ((List.perm_insertionSort _ _).mem_iff).trans List.mem_dedup

theorem childSortPerm_nodup (children : List PhysicsChild) :
    (childSortPerm children).Nodup := by
  rw [childSortPerm, List.nodup_flatMap]
  refine ⟨fun g _ => (List.nodup_range _).filter _, ?_⟩
  refine (sortedGroupKeys_nodup children).imp ?_
  intro g h hne i hig hih
  have h1 := of_decide_eq_true (List.mem_filter.mp hig).2
  have h2 := of_decide_eq_true (List.mem_filter.mp hih).2
  exact hne (h1 ▸ h2)

theorem mem_childSortPerm (children : List PhysicsChild) (i : Nat) :
    i ∈ childSortPerm children ↔ i < children.length := by
  rw [childSortPerm, List.mem_flatMap]
  constructor
  · rintro ⟨g, _, hi⟩
    exact List.mem_range.mp (List.mem_filter.mp hi).1
  · intro hi
    refine ⟨(children.getD i default).group_index, ?_, ?_⟩
    · rw [mem_sortedGroupKeys, List.mem_map]
      exact ⟨children.getD i default, getD_mem_of_lt children i hi, rfl⟩
    · rw [List.mem_filter]
      exact ⟨List.mem_range.mpr hi, by simp⟩

theorem childSortPerm_perm (children : List PhysicsChild) :
    (childSortPerm children).Perm (List.range children.length) := by
  rw [List.perm_ext_iff_of_nodup (childSortPerm_nodup children) (List.nodup_range _)]
  intro i
  rw [mem_childSortPerm, List.mem_range]

theorem childSortPerm_pairwise (children : List PhysicsChild) :
    (childSortPerm children).Pairwise (fun i j =>
      (children.getD i default).group_index ≤ (children.getD j default).group_index ∧
      ((children.getD i default).group_index = (children.getD j default).group_index →
        i < j)) := by
  apply pairwise_flatMap_of
  · have hs := (sortedGroupKeys_sorted children).and (sortedGroupKeys_nodup children)
    refine hs.imp ?_
    rintro g h ⟨hle, hne⟩ x hx y hy
    have h1 := of_decide_eq_true (List.mem_filter.mp hx).2
    have h2 := of_decide_eq_true (List.mem_filter.mp hy).2
    rw [h1, h2]
    exact ⟨hle, fun heq => absurd heq hne⟩
  · intro g _
    refine List.Pairwise.imp_of_mem ?_ ((List.pairwise_lt_range _).filter _)
    intro a b ha hb hab
    have h1 := of_decide_eq_true (List.mem_filter.mp ha).2
    have h2 := of_decide_eq_true (List.mem_filter.mp hb).2
    exact ⟨le_of_eq (h1.trans h2.symm), fun _ => hab⟩

/-- C1: `sort_cols_and_children` applies a single permutation `p` of the child
indices to both `children` and `archetype.bounds.children` (so index `i` of
both outputs comes from the same pre-sort pair), where `p` is ascending in
`group_index` and children sharing a `group_index` keep their original relative
order (stable). -/
theorem sort_cols_and_children_spec (children : List PhysicsChild)
    (bounds : List (Option BoundChild))
    (hc : children ≠ []) (hb : bounds ≠ [])
    (hlen : bounds.length = children.length) :
    ∃ p : List Nat,
      p.Perm (List.range children.length) ∧
      p.Pairwise (fun i j =>
        (children.getD i default).group_index ≤ (children.getD j default).group_index ∧
        ((children.getD i default).group_index = (children.getD j default).group_index →
          i < j)) ∧
      (sort_cols_and_children children bounds).1 =
        p.map (fun i => children.getD i default) ∧
      (sort_cols_and_children children bounds).2 =
        p.map (fun i => bounds.getD i default) := by
  refine ⟨childSortPerm children, childSortPerm_perm children,
    childSortPerm_pairwise children, ?_, ?_⟩ <;>
  · rw [sort_cols_and_children]
    have hc2 : children.isEmpty = false := by
      simpa using hc
    have hb2 : bounds.isEmpty = false := by
      simpa using hb
    simp [hc2, hb2]

/-- Witness for C1 at the spec example: children in groups [1,0,1]. -/
theorem sort_cols_and_children_spec_witness :
    ([⟨1, 10, 1⟩, ⟨0, 20, 1⟩, ⟨1, 30, 1⟩] : List PhysicsChild) ≠ [] ∧
    ([some ⟨Mat4.identity, ⟨1, 0, 0⟩⟩, some ⟨Mat4.identity, ⟨2, 0, 0⟩⟩,
      some ⟨Mat4.identity, ⟨3, 0, 0⟩⟩] : List (Option BoundChild)) ≠ [] ∧
    (∃ p : List Nat,
      p.Perm (List.range ([⟨1, 10, 1⟩, ⟨0, 20, 1⟩, ⟨1, 30, 1⟩] : List PhysicsChild).length) ∧
      p.Pairwise (fun i j =>
        (([⟨1, 10, 1⟩, ⟨0, 20, 1⟩, ⟨1, 30, 1⟩] : List PhysicsChild).getD i default).group_index ≤
          (([⟨1, 10, 1⟩, ⟨0, 20, 1⟩, ⟨1, 30, 1⟩] : List PhysicsChild).getD j default).group_index ∧
        ((([⟨1, 10, 1⟩, ⟨0, 20, 1⟩, ⟨1, 30, 1⟩] : List PhysicsChild).getD i default).group_index =
          (([⟨1, 10, 1⟩, ⟨0, 20, 1⟩, ⟨1, 30, 1⟩] : List PhysicsChild).getD j default).group_index →
          i < j)) ∧
      (sort_cols_and_children ([⟨1, 10, 1⟩, ⟨0, 20, 1⟩, ⟨1, 30, 1⟩] : List PhysicsChild)
        ([some ⟨Mat4.identity, ⟨1, 0, 0⟩⟩, some ⟨Mat4.identity, ⟨2, 0, 0⟩⟩,
          some ⟨Mat4.identity, ⟨3, 0, 0⟩⟩] : List (Option BoundChild))).1 =
        p.map (fun i => ([⟨1, 10, 1⟩, ⟨0, 20, 1⟩, ⟨1, 30, 1⟩] : List PhysicsChild).getD i default) ∧
      (sort_cols_and_children ([⟨1, 10, 1⟩, ⟨0, 20, 1⟩, ⟨1, 30, 1⟩] : List PhysicsChild)
        ([some ⟨Mat4.identity, ⟨1, 0, 0⟩⟩, some ⟨Mat4.identity, ⟨2, 0, 0⟩⟩,
          some ⟨Mat4.identity, ⟨3, 0, 0⟩⟩] : List (Option BoundChild))).2 =
        p.map (fun i => ([some ⟨Mat4.identity, ⟨1, 0, 0⟩⟩, some ⟨Mat4.identity, ⟨2, 0, 0⟩⟩,
          some ⟨Mat4.identity, ⟨3, 0, 0⟩⟩] : List (Option BoundChild)).getD i default)) :=
  ⟨by simp, by simp,
    sort_cols_and_children_spec _ _ (by simp) (by simp) (by simp)⟩

/-! ## Polymorphic discriminated XML lists (resources/drawable.py)

`ParametersListProperty.from_xml` (lines 106-121) walks the child nodes and
appends a parsed parameter for each node whose `type` attribute is one of
Texture/Vector/Array; `Drawable.from_xml` (lines 490-517) walks the child
nodes and assigns `new.bound` for each node whose `type` attribute is one of
the eight bound discriminators.  Both are modelled over the sequence of
visited nodes; the per-variant payload parsing keeps the node itself. -/

structure XmlNode where
  typeAttr : Option String
deriving DecidableEq

inductive ShaderParameter where
  | texture (node : XmlNode)
  | vector (node : XmlNode)
  | array (node : XmlNode)
deriving DecidableEq

/-- The loop body of `ParametersListProperty.from_xml` for one node: three
independent `if` tests, each appending the matching variant. -/
def shaderParamStep (acc : List ShaderParameter) (node : XmlNode) :
    List ShaderParameter :=
  match node.typeAttr with
  | none => acc
  | some t =>
    let acc1 := if t = "Texture" then acc ++ [ShaderParameter.texture node] else acc
    let acc2 := if t = "Vector" then acc1 ++ [ShaderParameter.vector node] else acc1
    let acc3 := if t = "Array" then acc2 ++ [ShaderParameter.array node] else acc2
    acc3

/-- `ParametersListProperty.from_xml` over the visited node sequence. -/
def parseShaderParameters (nodes : List XmlNode) : List ShaderParameter :=
  nodes.foldl shaderParamStep []

inductive BoundVariant where
  | box (node : XmlNode)
  | sphere (node : XmlNode)
  | capsule (node : XmlNode)
  | cylinder (node : XmlNode)
  | disc (node : XmlNode)
  | cloth (node : XmlNode)
  | geometry (node : XmlNode)
  | geometryBVH (node : XmlNode)
deriving DecidableEq

/-- The `if`/`elif` dispatch of `Drawable.from_xml` for one node: an unknown
discriminator falls through every branch and leaves `bound` unchanged. -/
def dispatchBoundNode (bound : Option BoundVariant) (node : XmlNode) :
    Option BoundVariant :=
  match node.typeAttr with
  | none => bound
  | some t =>
    if t = "Box" then some (BoundVariant.box node)
    else if t = "Sphere" then some (BoundVariant.sphere node)
    else if t = "Capsule" then some (BoundVariant.capsule node)
    else if t = "Cylinder" then some (BoundVariant.cylinder node)
    else if t = "Disc" then some (BoundVariant.disc node)
    else if t = "Cloth" then some (BoundVariant.cloth node)
    else if t = "Geometry" then some (BoundVariant.geometry node)
    else if t = "GeometryBVH" then some (BoundVariant.geometryBVH node)
    else bound

/-- `Drawable.from_xml` bound parsing: `bound` starts out unset (`None`). -/
def parseDrawableBound (nodes : List XmlNode) : Option BoundVariant :=
  nodes.foldl dispatchBoundNode none

theorem parseShaderParameters_step_unknown (acc : List ShaderParameter)
    (node : XmlNode) (t : String) (ht : node.typeAttr = some t)
    (hunk : t ∉ (["Texture", "Vector", "Array"] : List String)) :
    shaderParamStep acc node = acc := by
  simp only [List.mem_cons, List.mem_singleton, not_or] at hunk
  obtain ⟨h1, h2, h3⟩ := hunk
  simp [shaderParamStep, ht, h1, h2, h3]

theorem dispatchBoundNode_unknown (bound : Option BoundVariant) (node : XmlNode)
    (t : String) (ht : node.typeAttr = some t)
    (hunk : t ∉ (["Box", "Sphere", "Capsule", "Cylinder", "Disc", "Cloth",
      "Geometry", "GeometryBVH"] : List String)) :
    dispatchBoundNode bound node = bound := by
  simp only [List.mem_cons, List.mem_singleton, not_or] at hunk
  obtain ⟨h1, h2, h3, h4, h5, h6, h7, h8⟩ := hunk
  simp [dispatchBoundNode, ht, h1, h2, h3, h4, h5, h6, h7, h8]

theorem parseDrawableBound_all_unknown (nodes : List XmlNode)
    (hall : ∀ node ∈ nodes, ∀ t, node.typeAttr = some t →
      t ∉ (["Box", "Sphere", "Capsule", "Cylinder", "Disc", "Cloth",
        "Geometry", "GeometryBVH"] : List String)) :
    parseDrawableBound nodes = none := by
  induction nodes with
  | nil => rfl
  | cons node rest ih =>
    rw [parseDrawableBound, List.foldl_cons]
    have hnode : dispatchBoundNode none node = none := by
      cases hna : node.typeAttr with
      | none => simp [dispatchBoundNode, hna]
      | some t =>
        exact dispatchBoundNode_unknown none node t hna (hall node (by simp) t hna)
    rw [hnode]
    exact ih (fun n hn t ht => hall n (List.mem_cons_of_mem _ hn) t ht)

/-- C9: a child node whose `type` attribute is not a known discriminator is
silently dropped: removing it from the visited node sequence does not change
the parse result, for both shader parameter lists and drawable bounds; and a
drawable all of whose candidate nodes have unknown discriminators ends with no
bound set. -/
theorem unknown_discriminators_dropped :
    (∀ (xs ys : List XmlNode) (node : XmlNode) (t : String),
      node.typeAttr = some t →
      t ∉ (["Texture", "Vector", "Array"] : List String) →
      parseShaderParameters (xs ++ node :: ys) = parseShaderParameters (xs ++ ys)) ∧
    (∀ (xs ys : List XmlNode) (node : XmlNode) (t : String),
      node.typeAttr = some t →
      t ∉ (["Box", "Sphere", "Capsule", "Cylinder", "Disc", "Cloth",
        "Geometry", "GeometryBVH"] : List String) →
      parseDrawableBound (xs ++ node :: ys) = parseDrawableBound (xs ++ ys)) ∧
    (∀ (nodes : List XmlNode),
      (∀ node ∈ nodes, ∀ t, node.typeAttr = some t →
        t ∉ (["Box", "Sphere", "Capsule", "Cylinder", "Disc", "Cloth",
          "Geometry", "GeometryBVH"] : List String)) →
      parseDrawableBound nodes = none) := by
  refine ⟨?_, ?_, ?_⟩
  · intro xs ys node t ht hunk
    rw [parseShaderParameters, parseShaderParameters, List.foldl_append,
      List.foldl_append, List.foldl_cons,
      parseShaderParameters_step_unknown _ node t ht hunk]
  · intro xs ys node t ht hunk
    rw [parseDrawableBound, parseDrawableBound, List.foldl_append,
      List.foldl_append, List.foldl_cons,
      dispatchBoundNode_unknown _ node t ht hunk]
  · exact parseDrawableBound_all_unknown

/-- Witness for C9 at a node with discriminator "Bogus". -/
theorem unknown_discriminators_dropped_witness :
    parseShaderParameters ([] ++ XmlNode.mk (some "Bogus") :: []) =
      parseShaderParameters ([] ++ []) ∧
    parseDrawableBound ([] ++ XmlNode.mk (some "Bogus") :: []) =
      parseDrawableBound ([] ++ []) ∧
    parseDrawableBound [XmlNode.mk (some "Bogus")] = none :=
  ⟨unknown_discriminators_dropped.1 [] [] _ "Bogus" rfl (by decide),
   unknown_discriminators_dropped.2.1 [] [] _ "Bogus" rfl (by decide),
   unknown_discriminators_dropped.2.2 [XmlNode.mk (some "Bogus")]
     (by intro node hn t ht; simp at hn; subst hn; simp at ht; subst ht; decide)⟩

/-! ## Navmesh polygon attributes (ynv/navmesh_attributes.py)

`mesh_set_navmesh_poly_attributes` packs a `NavPolyAttributes` value into two
16-bit integers `data0`/`data1` stored as mesh attributes, and
`mesh_get_navmesh_poly_attributes` unpacks them; the mesh storage itself is
host-application state, modelled as the `(data0, data1)` pair passed through.
-/

structure NavPolyCoverDirections where
  dir0 : Bool
  dir1 : Bool
  dir2 : Bool
  dir3 : Bool
  dir4 : Bool
  dir5 : Bool
  dir6 : Bool
  dir7 : Bool
deriving DecidableEq

structure NavPolyAttributes where
  is_small : Bool
  is_large : Bool
  is_pavement : Bool
  is_in_shelter : Bool
  is_too_steep_to_walk_on : Bool
  is_water : Bool
  is_near_car_node : Bool
  is_interior : Bool
  is_isolated : Bool
  is_network_spawn_candidate : Bool
  is_road : Bool
  lies_along_edge : Bool
  is_train_track : Bool
  is_shallow_water : Bool
  cover_directions : NavPolyCoverDirections
  audio_reverb_size : Nat
  audio_reverb_wet : Nat
  ped_density : Nat
deriving DecidableEq

def navSetFlags0 (a : NavPolyAttributes) : Nat :=
  let flags0 : Nat := 0
  let flags0 := flags0 ||| (if a.is_small then 1 else 0)
  let flags0 := flags0 ||| (if a.is_large then 2 else 0)
  let flags0 := flags0 ||| (if a.is_pavement then 4 else 0)
  let flags0 := flags0 ||| (if a.is_in_shelter then 8 else 0)
  let flags0 := flags0 ||| (if a.is_too_steep_to_walk_on then 64 else 0)
  let flags0 := flags0 ||| (if a.is_water then 128 else 0)
  flags0

def navSetFlags1 (a : NavPolyAttributes) : Nat :=
  let flags1 : Nat := a.audio_reverb_size &&& 3
  let flags1 := flags1 ||| ((a.audio_reverb_wet &&& 3) <<< 2)
  let flags1 := flags1 ||| (if a.is_near_car_node then 32 else 0)
  let flags1 := flags1 ||| (if a.is_interior then 64 else 0)
  let flags1 := flags1 ||| (if a.is_isolated then 128 else 0)
  flags1

def navSetFlags2 (a : NavPolyAttributes) : Nat :=
  let flags2 : Nat := 0
  let flags2 := flags2 ||| (if a.is_network_spawn_candidate then 1 else 0)
  let flags2 := flags2 ||| (if a.is_road then 2 else 0)
  let flags2 := flags2 ||| (if a.lies_along_edge then 4 else 0)
  let flags2 := flags2 ||| (if a.is_train_track then 8 else 0)
  let flags2 := flags2 ||| (if a.is_shallow_water then 16 else 0)
  let flags2 := flags2 ||| ((a.ped_density &&& 7) <<< 5)
  flags2

/-- The `for i in range(8)` loop building `flags3`, unrolled. -/
def navSetFlags3 (c : NavPolyCoverDirections) : Nat :=
  let flags3 : Nat := 0
  let flags3 := flags3 ||| (if c.dir0 then 1 <<< 0 else 0)
  let flags3 := flags3 ||| (if c.dir1 then 1 <<< 1 else 0)
  let flags3 := flags3 ||| (if c.dir2 then 1 <<< 2 else 0)
  let flags3 := flags3 ||| (if c.dir3 then 1 <<< 3 else 0)
  let flags3 := flags3 ||| (if c.dir4 then 1 <<< 4 else 0)
  let flags3 := flags3 ||| (if c.dir5 then 1 <<< 5 else 0)
  let flags3 := flags3 ||| (if c.dir6 then 1 <<< 6 else 0)
  let flags3 := flags3 ||| (if c.dir7 then 1 <<< 7 else 0)
  flags3

/-- `mesh_set_navmesh_poly_attributes` (lines 126-175): the packed
`(data0, data1)` pair written into the mesh attributes. -/
def mesh_set_navmesh_poly_attributes (a : NavPolyAttributes) : Nat × Nat :=
  (navSetFlags0 a ||| navSetFlags1 a <<< 8,
   navSetFlags2 a ||| navSetFlags3 a.cover_directions <<< 8)

/-- `mesh_get_navmesh_poly_attributes` (lines 77-123) on the stored
`(data0, data1)` pair. -/
def mesh_get_navmesh_poly_attributes (data : Nat × Nat) : NavPolyAttributes :=
  let flags0 := data.1 &&& 0xFF
  let flags1 := (data.1 >>> 8) &&& 0xFF
  let flags2 := data.2 &&& 0xFF
  let flags3 := (data.2 >>> 8) &&& 0xFF
  { is_small := flags0 &&& 1 != 0
    is_large := flags0 &&& 2 != 0
    is_pavement := flags0 &&& 4 != 0
    is_in_shelter := flags0 &&& 8 != 0
    is_too_steep_to_walk_on := flags0 &&& 64 != 0
    is_water := flags0 &&& 128 != 0
    audio_reverb_size := flags1 &&& 3
    audio_reverb_wet := (flags1 >>> 2) &&& 3
    is_near_car_node := flags1 &&& 32 != 0
    is_interior := flags1 &&& 64 != 0
    is_isolated := flags1 &&& 128 != 0
    is_network_spawn_candidate := flags2 &&& 1 != 0
    is_road := flags2 &&& 2 != 0
    lies_along_edge := flags2 &&& 4 != 0
    is_train_track := flags2 &&& 8 != 0
    is_shallow_water := flags2 &&& 16 != 0
    ped_density := (flags2 >>> 5) &&& 7
    cover_directions :=
      ⟨flags3 &&& 1 <<< 0 != 0, flags3 &&& 1 <<< 1 != 0, flags3 &&& 1 <<< 2 != 0,
       flags3 &&& 1 <<< 3 != 0, flags3 &&& 1 <<< 4 != 0, flags3 &&& 1 <<< 5 != 0,
       flags3 &&& 1 <<< 6 != 0, flags3 &&& 1 <<< 7 != 0⟩ }

/-! ### Byte packing/unpacking lemmas -/

theorem byte_pack_low {a b : Nat} (ha : a < 256) : (a ||| b <<< 8) &&& 255 = a := by
  apply Nat.eq_of_testBit_eq
  intro i
  rw [show (255 : ℕ) = 2 ^ 8 - 1 by norm_num]
  simp only [Nat.testBit_and, Nat.testBit_or, Nat.testBit_shiftLeft,
    Nat.testBit_two_pow_sub_one]
  by_cases h : i < 8
  · have h8 : ¬ (8 ≤ i) := by omega
    simp [h, h8]
  · have hfa : a.testBit i = false := by
      apply Nat.testBit_lt_two_pow
      calc a < 256 := ha
        _ = 2 ^ 8 := by norm_num
        _ ≤ 2 ^ i := Nat.pow_le_pow_right (by norm_num) (by omega)
    simp [h, hfa]

theorem byte_pack_high {a b : Nat} (ha : a < 256) (hb : b < 256) :
    ((a ||| b <<< 8) >>> 8) &&& 255 = b := by
  apply Nat.eq_of_testBit_eq
  intro i
  rw [show (255 : ℕ) = 2 ^ 8 - 1 by norm_num]
  simp only [Nat.testBit_and, Nat.testBit_shiftRight, Nat.testBit_or,
    Nat.testBit_shiftLeft, Nat.testBit_two_pow_sub_one]
  have hfa : a.testBit (8 + i) = false := by
    apply Nat.testBit_lt_two_pow
    calc a < 256 := ha
      _ = 2 ^ 8 := by norm_num
      _ ≤ 2 ^ (8 + i) := Nat.pow_le_pow_right (by norm_num) (by omega)
  by_cases h : i < 8
  · have h8 : 8 ≤ 8 + i := by omega
    simp [h, hfa, h8, Nat.add_sub_cancel_left]
  · have hfb : b.testBit i = false := by
      apply Nat.testBit_lt_two_pow
      calc b < 256 := hb
        _ = 2 ^ 8 := by norm_num
        _ ≤ 2 ^ i := Nat.pow_le_pow_right (by norm_num) (by omega)
    simp [h, hfa, hfb, show 8 + i - 8 = i by omega]

theorem byte_pack_lt {a b : Nat} (ha : a < 256) (hb : b < 256) :
    (a ||| b <<< 8) < 65536 := by
  have hbits : ∀ i, 16 ≤ i → (a ||| b <<< 8).testBit i = false := by
    intro i hi
    simp only [Nat.testBit_or, Nat.testBit_shiftLeft]
    have hfa : a.testBit i = false := by
      apply Nat.testBit_lt_two_pow
      calc a < 256 := ha
        _ = 2 ^ 8 := by norm_num
        _ ≤ 2 ^ i := Nat.pow_le_pow_right (by norm_num) (by omega)
    have hfb : b.testBit (i - 8) = false := by
      apply Nat.testBit_lt_two_pow
      calc b < 256 := hb
        _ = 2 ^ 8 := by norm_num
        _ ≤ 2 ^ (i - 8) := Nat.pow_le_pow_right (by norm_num) (by omega)
    simp [hfa, hfb]
  have h2 : (a ||| b <<< 8) < 2 ^ 16 := Nat.lt_pow_two_of_testBit _ hbits
  simpa using h2

/-! ### Per-byte decode lemmas -/

/-- `navSetFlags0` as a function of the raw fields it reads (definitional). -/
def packNavFlags0 (f1 f2 f3 f4 f5 f6 : Bool) : Nat :=
  ((((((0 : Nat) ||| (if f1 then 1 else 0)) ||| (if f2 then 2 else 0)) |||
    (if f3 then 4 else 0)) ||| (if f4 then 8 else 0)) |||
    (if f5 then 64 else 0)) ||| (if f6 then 128 else 0)

theorem navSetFlags0_eq (a : NavPolyAttributes) :
    navSetFlags0 a = packNavFlags0 a.is_small a.is_large a.is_pavement
      a.is_in_shelter a.is_too_steep_to_walk_on a.is_water := rfl

/-- `navSetFlags1` as a function of the raw fields it reads (definitional). -/
def packNavFlags1 (size wet : Nat) (f7 f8 f9 : Bool) : Nat :=
  ((((size &&& 3) ||| ((wet &&& 3) <<< 2)) ||| (if f7 then 32 else 0)) |||
    (if f8 then 64 else 0)) ||| (if f9 then 128 else 0)

theorem navSetFlags1_eq (a : NavPolyAttributes) :
    navSetFlags1 a = packNavFlags1 a.audio_reverb_size a.audio_reverb_wet
      a.is_near_car_node a.is_interior a.is_isolated := rfl

/-- `navSetFlags2` as a function of the raw fields it reads (definitional). -/
def packNavFlags2 (f10 f11 f12 f13 f14 : Bool) (ped : Nat) : Nat :=
  ((((((0 : Nat) ||| (if f10 then 1 else 0)) ||| (if f11 then 2 else 0)) |||
    (if f12 then 4 else 0)) ||| (if f13 then 8 else 0)) |||
    (if f14 then 16 else 0)) ||| ((ped &&& 7) <<< 5)

theorem navSetFlags2_eq (a : NavPolyAttributes) :
    navSetFlags2 a = packNavFlags2 a.is_network_spawn_candidate a.is_road
      a.lies_along_edge a.is_train_track a.is_shallow_water a.ped_density := rfl

theorem packNavFlags0_lt (f1 f2 f3 f4 f5 f6 : Bool) :
    packNavFlags0 f1 f2 f3 f4 f5 f6 < 256 := by
  cases f1 <;> cases f2 <;> cases f3 <;> cases f4 <;> cases f5 <;> cases f6 <;> decide

theorem packNavFlags1_lt (size wet : Nat) (f7 f8 f9 : Bool)
    (hsize : size ≤ 3) (hwet : wet ≤ 3) :
    packNavFlags1 size wet f7 f8 f9 < 256 := by
  interval_cases size <;> interval_cases wet <;>
    cases f7 <;> cases f8 <;> cases f9 <;> decide

theorem packNavFlags2_lt (f10 f11 f12 f13 f14 : Bool) (ped : Nat)
    (hped : ped ≤ 7) :
    packNavFlags2 f10 f11 f12 f13 f14 ped < 256 := by
  interval_cases ped <;>
    cases f10 <;> cases f11 <;> cases f12 <;> cases f13 <;> cases f14 <;> decide

theorem navSetFlags3_lt (c : NavPolyCoverDirections) : navSetFlags3 c < 256 := by
  obtain ⟨d0, d1, d2, d3, d4, d5, d6, d7⟩ := c
  cases d0 <;> cases d1 <;> cases d2 <;> cases d3 <;> cases d4 <;> cases d5 <;>
    cases d6 <;> cases d7 <;> decide

theorem packNavFlags0_decode (f1 f2 f3 f4 f5 f6 : Bool) :
    (packNavFlags0 f1 f2 f3 f4 f5 f6 &&& 1 != 0) = f1 ∧
    (packNavFlags0 f1 f2 f3 f4 f5 f6 &&& 2 != 0) = f2 ∧
    (packNavFlags0 f1 f2 f3 f4 f5 f6 &&& 4 != 0) = f3 ∧
    (packNavFlags0 f1 f2 f3 f4 f5 f6 &&& 8 != 0) = f4 ∧
    (packNavFlags0 f1 f2 f3 f4 f5 f6 &&& 64 != 0) = f5 ∧
    (packNavFlags0 f1 f2 f3 f4 f5 f6 &&& 128 != 0) = f6 := by
  cases f1 <;> cases f2 <;> cases f3 <;> cases f4 <;> cases f5 <;> cases f6 <;> decide

theorem packNavFlags1_decode (size wet : Nat) (f7 f8 f9 : Bool)
    (hsize : size ≤ 3) (hwet : wet ≤ 3) :
    (packNavFlags1 size wet f7 f8 f9 &&& 3) = size ∧
    ((packNavFlags1 size wet f7 f8 f9 >>> 2) &&& 3) = wet ∧
    (packNavFlags1 size wet f7 f8 f9 &&& 32 != 0) = f7 ∧
    (packNavFlags1 size wet f7 f8 f9 &&& 64 != 0) = f8 ∧
    (packNavFlags1 size wet f7 f8 f9 &&& 128 != 0) = f9 := by
  interval_cases size <;> interval_cases wet <;>
    cases f7 <;> cases f8 <;> cases f9 <;> decide

theorem packNavFlags2_decode (f10 f11 f12 f13 f14 : Bool) (ped : Nat)
    (hped : ped ≤ 7) :
    (packNavFlags2 f10 f11 f12 f13 f14 ped &&& 1 != 0) = f10 ∧
    (packNavFlags2 f10 f11 f12 f13 f14 ped &&& 2 != 0) = f11 ∧
    (packNavFlags2 f10 f11 f12 f13 f14 ped &&& 4 != 0) = f12 ∧
    (packNavFlags2 f10 f11 f12 f13 f14 ped &&& 8 != 0) = f13 ∧
    (packNavFlags2 f10 f11 f12 f13 f14 ped &&& 16 != 0) = f14 ∧
    ((packNavFlags2 f10 f11 f12 f13 f14 ped >>> 5) &&& 7) = ped := by
  interval_cases ped <;>
    cases f10 <;> cases f11 <;> cases f12 <;> cases f13 <;> cases f14 <;> decide

theorem navSetFlags3_decode (c : NavPolyCoverDirections) :
    (navSetFlags3 c &&& 1 <<< 0 != 0) = c.dir0 ∧
    (navSetFlags3 c &&& 1 <<< 1 != 0) = c.dir1 ∧
    (navSetFlags3 c &&& 1 <<< 2 != 0) = c.dir2 ∧
    (navSetFlags3 c &&& 1 <<< 3 != 0) = c.dir3 ∧
    (navSetFlags3 c &&& 1 <<< 4 != 0) = c.dir4 ∧
    (navSetFlags3 c &&& 1 <<< 5 != 0) = c.dir5 ∧
    (navSetFlags3 c &&& 1 <<< 6 != 0) = c.dir6 ∧
    (navSetFlags3 c &&& 1 <<< 7 != 0) = c.dir7 := by
  obtain ⟨d0, d1, d2, d3, d4, d5, d6, d7⟩ := c
  cases d0 <;> cases d1 <;> cases d2 <;> cases d3 <;> cases d4 <;> cases d5 <;>
    cases d6 <;> cases d7 <;> decide

/-- C10: packing a `NavPolyAttributes` whose numeric fields are in range with
`mesh_set_navmesh_poly_attributes` and unpacking with
`mesh_get_navmesh_poly_attributes` returns the same value, and the packed
`data0`/`data1` integers use only their low 16 bits. -/
theorem navmesh_poly_attributes_roundtrip (a : NavPolyAttributes)
    (hsize : a.audio_reverb_size ≤ 3) (hwet : a.audio_reverb_wet ≤ 3)
    (hped : a.ped_density ≤ 7) :
    mesh_get_navmesh_poly_attributes (mesh_set_navmesh_poly_attributes a) = a ∧
    (mesh_set_navmesh_poly_attributes a).1 < 2 ^ 16 ∧
    (mesh_set_navmesh_poly_attributes a).2 < 2 ^ 16 := by
  have h0 : navSetFlags0 a < 256 := by
    rw [navSetFlags0_eq]; exact packNavFlags0_lt _ _ _ _ _ _
  have h1 : navSetFlags1 a < 256 := by
    rw [navSetFlags1_eq]; exact packNavFlags1_lt _ _ _ _ _ hsize hwet
  have h2 : navSetFlags2 a < 256 := by
    rw [navSetFlags2_eq]; exact packNavFlags2_lt _ _ _ _ _ _ hped
  have h3 := navSetFlags3_lt a.cover_directions
  refine ⟨?_, ?_, ?_⟩
  · obtain ⟨e01, e02, e03, e04, e05, e06⟩ :=
      packNavFlags0_decode a.is_small a.is_large a.is_pavement a.is_in_shelter
        a.is_too_steep_to_walk_on a.is_water
    obtain ⟨e11, e12, e13, e14, e15⟩ :=
      packNavFlags1_decode a.audio_reverb_size a.audio_reverb_wet
        a.is_near_car_node a.is_interior a.is_isolated hsize hwet
    obtain ⟨e21, e22, e23, e24, e25, e26⟩ :=
      packNavFlags2_decode a.is_network_spawn_candidate a.is_road
        a.lies_along_edge a.is_train_track a.is_shallow_water a.ped_density hped
    obtain ⟨e31, e32, e33, e34, e35, e36, e37, e38⟩ :=
      navSetFlags3_decode a.cover_directions
    simp only [mesh_get_navmesh_poly_attributes, mesh_set_navmesh_poly_attributes]
    rw [show (0xFF : ℕ) = 255 from rfl]
    rw [byte_pack_low h0, byte_pack_high h0 h1, byte_pack_low h2,
      byte_pack_high h2 h3]
    rw [navSetFlags0_eq, navSetFlags1_eq, navSetFlags2_eq]
    rw [e01, e02, e03, e04, e05, e06, e11, e12, e13, e14, e15,
      e21, e22, e23, e24, e25, e26, e31, e32, e33, e34, e35, e36, e37, e38]
  · simpa using byte_pack_lt h0 h1
  · simpa using byte_pack_lt h2 h3

/-- Witness for C10 at a concrete attribute value. -/
theorem navmesh_poly_attributes_roundtrip_witness :
    (2 : Nat) ≤ 3 ∧ (1 : Nat) ≤ 3 ∧ (5 : Nat) ≤ 7 ∧
    (mesh_get_navmesh_poly_attributes (mesh_set_navmesh_poly_attributes
      ⟨true, false, true, false, false, true, true, false, false, true, false,
       true, false, true, ⟨true, false, false, true, false, true, true, false⟩,
       2, 1, 5⟩) =
      ⟨true, false, true, false, false, true, true, false, false, true, false,
       true, false, true, ⟨true, false, false, true, false, true, true, false⟩,
       2, 1, 5⟩ ∧
     (mesh_set_navmesh_poly_attributes
      ⟨true, false, true, false, false, true, true, false, false, true, false,
       true, false, true, ⟨true, false, false, true, false, true, true, false⟩,
       2, 1, 5⟩).1 < 2 ^ 16 ∧
     (mesh_set_navmesh_poly_attributes
      ⟨true, false, true, false, false, true, true, false, false, true, false,
       true, false, true, ⟨true, false, false, true, false, true, true, false⟩,
       2, 1, 5⟩).2 < 2 ^ 16) :=
  ⟨by decide, by decide, by decide,
   navmesh_poly_attributes_roundtrip _ (by decide) (by decide) (by decide)⟩


/-! ## Cloth vertex reindexing (`create_frag_env_cloth`, yftexport.py 1301-1321)

The export partitions mesh vertices into pinned and unpinned, assigning pinned
vertices the cloth indices `[0, num_pinned)` and unpinned vertices
`[num_pinned, n)`, filling `mesh_to_cloth_vertex_map`, `cloth_to_mesh_vertex_map`
and the cloth-ordered `vertices` array in one pass over the mesh vertices. -/

/-- `num_pinned = np.sum(pinned)`. -/
def numPinned (pinned : List Bool) : Nat := (pinned.filter id).length

structure ReindexState where
  m2c : List (Option Nat)
  c2m : List (Option Nat)
  verts : List (Option Vec3)
  pinIdx : Nat
  unpinIdx : Nat

/-- One iteration of the `for v in cloth_mesh.vertices` loop. -/
def reindexStep (pinned : List Bool) (positions : List Vec3)
    (st : ReindexState) (v : Nat) : ReindexState :=
  let isPinned := pinned.getD v false
  let vi := if isPinned then st.pinIdx else st.unpinIdx
  { m2c := st.m2c.set v (some vi)
    c2m := st.c2m.set vi (some v)
    verts := st.verts.set vi (some (positions.getD v default))
    pinIdx := if isPinned then st.pinIdx + 1 else st.pinIdx
    unpinIdx := if isPinned then st.unpinIdx else st.unpinIdx + 1 }

/-- The vertex reindexing loop: maps start out as `[None] * num_vertices`,
`cloth_pin_index` at 0 and `cloth_unpin_index` at `num_pinned`. -/
def reindexVertices (pinned : List Bool) (positions : List Vec3) : ReindexState :=
  (List.range pinned.length).foldl (reindexStep pinned positions)
    { m2c := List.replicate pinned.length none
      c2m := List.replicate pinned.length none
      verts := List.replicate pinned.length none
      pinIdx := 0
      unpinIdx := numPinned pinned }

/-- Number of pinned vertices among the mesh vertices before `v`. -/
def rankPinnedBefore (pinned : List Bool) (v : Nat) : Nat :=
  ((List.range v).filter (fun i => pinned.getD i false)).length

/-- Number of unpinned vertices among the mesh vertices before `v`. -/
def rankUnpinnedBefore (pinned : List Bool) (v : Nat) : Nat :=
  ((List.range v).filter (fun i => !pinned.getD i false)).length

/-- The cloth index the reindexing loop assigns to mesh vertex `v`. -/
def m2cSpec (pinned : List Bool) (v : Nat) : Nat :=
  if pinned.getD v false then rankPinnedBefore pinned v
  else numPinned pinned + rankUnpinnedBefore pinned v

/-! ### `getD`/`set` helper lemmas -/

theorem getD_set_self {α : Type} (l : List α) (i : Nat) (a d : α)
    (h : i < l.length) : (l.set i a).getD i d = a := by
  rw [List.getD_eq_getElem?_getD, List.getElem?_set_self h]
  rfl

theorem getD_set_ne {α : Type} (l : List α) (i j : Nat) (a d : α)
    (h : i ≠ j) : (l.set i a).getD j d = l.getD j d := by
  rw [List.getD_eq_getElem?_getD, List.getD_eq_getElem?_getD,
    List.getElem?_set_ne h]

theorem getD_replicate_none {α : Type} (n i : Nat) :
    (List.replicate n (none : Option α)).getD i none = none := by
  rw [List.getD_eq_getElem?_getD, List.getElem?_replicate]
  by_cases h : i < n <;> simp [h]

/-! ### Rank lemmas -/

theorem rankPinnedBefore_succ (pinned : List Bool) (v : Nat) :
    rankPinnedBefore pinned (v + 1) =
      rankPinnedBefore pinned v + (if pinned.getD v false then 1 else 0) := by
  rw [rankPinnedBefore, rankPinnedBefore, List.range_succ, List.filter_append,
    List.length_append]
  cases h : pinned.getD v false
  · rw [if_neg (by simp [h]), List.filter_singleton, h]
    rfl
  · rw [if_pos (by simp [h]), List.filter_singleton, h]
    rfl

theorem rankUnpinnedBefore_succ (pinned : List Bool) (v : Nat) :
    rankUnpinnedBefore pinned (v + 1) =
      rankUnpinnedBefore pinned v + (if pinned.getD v false then 0 else 1) := by
  rw [rankUnpinnedBefore, rankUnpinnedBefore, List.range_succ, List.filter_append,
    List.length_append]
  cases h : pinned.getD v false
  · rw [if_neg (by simp [h]), List.filter_singleton, h]
    rfl
  · rw [if_pos (by simp [h]), List.filter_singleton, h]
    rfl

theorem rankPinnedBefore_mono (pinned : List Bool) {v w : Nat} (h : v ≤ w) :
    rankPinnedBefore pinned v ≤ rankPinnedBefore pinned w := by
  obtain ⟨k, rfl⟩ := Nat.exists_eq_add_of_le h
  induction k with
  | zero => exact le_rfl
  | succ k ih =>
    have ihx := ih (by omega)
    rw [show v + (k + 1) = (v + k) + 1 from rfl, rankPinnedBefore_succ]
    cases hp : pinned.getD (v + k) false <;> simp <;> omega

theorem rankUnpinnedBefore_mono (pinned : List Bool) {v w : Nat} (h : v ≤ w) :
    rankUnpinnedBefore pinned v ≤ rankUnpinnedBefore pinned w := by
  obtain ⟨k, rfl⟩ := Nat.exists_eq_add_of_le h
  induction k with
  | zero => exact le_rfl
  | succ k ih =>
    have ihx := ih (by omega)
    rw [show v + (k + 1) = (v + k) + 1 from rfl, rankUnpinnedBefore_succ]
    cases hp : pinned.getD (v + k) false <;> simp <;> omega

theorem numPinned_eq_rank (pinned : List Bool) :
    numPinned pinned = rankPinnedBefore pinned pinned.length := by
  rw [numPinned, rankPinnedBefore]
  induction pinned using List.reverseRecOn with
  | nil => rfl
  | append_singleton xs b ih =>
    rw [List.filter_append, List.length_append, List.length_append,
      show xs.length + [b].length = xs.length + 1 from rfl, List.range_succ,
      List.filter_append, List.length_append]
    have hcongr : List.filter (fun i => (xs ++ [b]).getD i false) (List.range xs.length) =
        List.filter (fun i => xs.getD i false) (List.range xs.length) := by
      apply List.filter_congr
      intro i hi
      rw [List.getD_append _ _ _ _ (List.mem_range.mp hi)]
    have hlast : (xs ++ [b]).getD xs.length false = b := by
      rw [List.getD_append_right _ _ _ _ le_rfl, Nat.sub_self]
      rfl
    rw [hcongr, ← ih]
    by_cases hb : b <;> simp [hb, hlast]

theorem rank_split (pinned : List Bool) (v : Nat) :
    rankPinnedBefore pinned v + rankUnpinnedBefore pinned v = v := by
  induction v with
  | zero => rfl
  | succ v ih =>
    rw [rankPinnedBefore_succ, rankUnpinnedBefore_succ]
    cases h : pinned.getD v false <;> simp <;> omega

theorem rankPinnedBefore_lt_numPinned (pinned : List Bool) (v : Nat)
    (hv : v < pinned.length) (hp : pinned.getD v false = true) :
    rankPinnedBefore pinned v < numPinned pinned := by
  have h1 := rankPinnedBefore_succ pinned v
  rw [hp] at h1
  simp at h1
  have h2 : rankPinnedBefore pinned (v + 1) ≤ rankPinnedBefore pinned pinned.length :=
    rankPinnedBefore_mono pinned (by omega)
  rw [numPinned_eq_rank]
  omega

theorem unpinned_spec_lt (pinned : List Bool) (v : Nat)
    (hv : v < pinned.length) (hp : pinned.getD v false = false) :
    numPinned pinned + rankUnpinnedBefore pinned v < pinned.length := by
  have h1 := rankUnpinnedBefore_succ pinned v
  rw [hp] at h1
  simp at h1
  have h2 : rankUnpinnedBefore pinned (v + 1) ≤ rankUnpinnedBefore pinned pinned.length :=
    rankUnpinnedBefore_mono pinned (by omega)
  have h3 := rank_split pinned pinned.length
  rw [numPinned_eq_rank]
  omega

theorem m2cSpec_lt_length (pinned : List Bool) (v : Nat) (hv : v < pinned.length) :
    m2cSpec pinned v < pinned.length := by
  rw [m2cSpec]
  by_cases hp : pinned.getD v false
  · rw [if_pos hp]
    calc rankPinnedBefore pinned v < numPinned pinned :=
          rankPinnedBefore_lt_numPinned pinned v hv hp
      _ ≤ pinned.length := by
          rw [numPinned]
          exact List.length_filter_le _ _
  · rw [if_neg hp]
    exact unpinned_spec_lt pinned v hv (by simpa using hp)

theorem m2cSpec_strictMono (pinned : List Bool) (v w : Nat) (hvw : v < w)
    (hsame : pinned.getD v false = pinned.getD w false) :
    m2cSpec pinned v < m2cSpec pinned w := by
  rw [m2cSpec, m2cSpec, ← hsame]
  by_cases hp : pinned.getD v false
  · rw [if_pos hp, if_pos hp]
    have h1 := rankPinnedBefore_succ pinned v
    rw [hp] at h1
    simp at h1
    have h2 : rankPinnedBefore pinned (v + 1) ≤ rankPinnedBefore pinned w :=
      rankPinnedBefore_mono pinned (by omega)
    omega
  · rw [if_neg hp, if_neg hp]
    have hp2 : pinned.getD v false = false := by simpa using hp
    have h1 := rankUnpinnedBefore_succ pinned v
    rw [hp2] at h1
    simp at h1
    have h2 : rankUnpinnedBefore pinned (v + 1) ≤ rankUnpinnedBefore pinned w :=
      rankUnpinnedBefore_mono pinned (by omega)
    omega

theorem m2cSpec_inj (pinned : List Bool) (v w : Nat) (hv : v < pinned.length)
    (hw : w < pinned.length) (heq : m2cSpec pinned v = m2cSpec pinned w) :
    v = w := by
  by_cases hsame : pinned.getD v false = pinned.getD w false
  · rcases lt_trichotomy v w with h | h | h
    · exact absurd heq (Nat.ne_of_lt (m2cSpec_strictMono pinned v w h hsame))
    · exact h
    · exact absurd heq.symm (Nat.ne_of_lt (m2cSpec_strictMono pinned w v h hsame.symm))
  · exfalso
    by_cases hpv : pinned.getD v false
    · have hpw : pinned.getD w false = false := by
        cases hw2 : pinned.getD w false
        · rfl
        · exact absurd (hpv.trans hw2.symm) hsame
      have h1 : m2cSpec pinned v < numPinned pinned := by
        rw [m2cSpec, if_pos hpv]
        exact rankPinnedBefore_lt_numPinned pinned v hv hpv
      have h2 : numPinned pinned ≤ m2cSpec pinned w := by
        rw [m2cSpec, hpw]
        simp
      omega
    · have hpv2 : pinned.getD v false = false := by simpa using hpv
      have hpw : pinned.getD w false = true := by
        cases hw2 : pinned.getD w false
        · exact absurd (hpv2.trans hw2.symm) hsame
        · rfl
      have h1 : m2cSpec pinned w < numPinned pinned := by
        rw [m2cSpec, if_pos hpw]
        exact rankPinnedBefore_lt_numPinned pinned w hw hpw
      have h2 : numPinned pinned ≤ m2cSpec pinned v := by
        rw [m2cSpec, hpv2]
        simp
      omega

theorem m2cSpec_surj (pinned : List Bool) (c : Nat) (hc : c < pinned.length) :
    ∃ v, v < pinned.length ∧ m2cSpec pinned v = c := by
  have hinj : Function.Injective
      (fun v : Fin pinned.length =>
        (⟨m2cSpec pinned v.1, m2cSpec_lt_length pinned v.1 v.2⟩ : Fin pinned.length)) := by
    intro a b hab
    apply Fin.ext
    exact m2cSpec_inj pinned a.1 b.1 a.2 b.2 (congrArg Fin.val hab)
  have hsurj := Finite.injective_iff_surjective.mp hinj
  obtain ⟨v, hv⟩ := hsurj ⟨c, hc⟩
  exact ⟨v.1, v.2, congrArg Fin.val hv⟩

/-! ### The reindexing loop invariant -/

def ReindexInv (pinned : List Bool) (m : Nat) (st : ReindexState) : Prop :=
  st.m2c.length = pinned.length ∧
  st.c2m.length = pinned.length ∧
  st.pinIdx = rankPinnedBefore pinned m ∧
  st.unpinIdx = numPinned pinned + rankUnpinnedBefore pinned m ∧
  (∀ v, v < m → st.m2c.getD v none = some (m2cSpec pinned v)) ∧
  (∀ c x, st.c2m.getD c none = some x → x < m ∧ m2cSpec pinned x = c) ∧
  (∀ v, v < m → st.c2m.getD (m2cSpec pinned v) none = some v)

theorem reindexStep_inv (pinned : List Bool) (positions : List Vec3) (m : Nat)
    (hm : m < pinned.length) (st : ReindexState)
    (h : ReindexInv pinned m st) :
    ReindexInv pinned (m + 1) (reindexStep pinned positions st m) := by
  obtain ⟨hl1, hl2, hpin, hunpin, hm2c, hc2mAll, hc2m⟩ := h
  have hvi : (if pinned.getD m false then st.pinIdx else st.unpinIdx) =
      m2cSpec pinned m := by
    rw [m2cSpec, hpin, hunpin]
  have hviLt : m2cSpec pinned m < pinned.length := m2cSpec_lt_length pinned m hm
  refine ⟨?_, ?_, ?_, ?_, ?_, ?_, ?_⟩
  · simp only [reindexStep, List.length_set]
    exact hl1
  · simp only [reindexStep, List.length_set]
    exact hl2
  · show (if pinned.getD m false then st.pinIdx + 1 else st.pinIdx) = _
    rw [rankPinnedBefore_succ, hpin]
    cases hp : pinned.getD m false <;> simp
  · show (if pinned.getD m false then st.unpinIdx else st.unpinIdx + 1) = _
    rw [rankUnpinnedBefore_succ, hunpin]
    cases hp : pinned.getD m false <;> simp <;> omega
  · intro v hv
    simp only [reindexStep]
    rcases Nat.lt_succ_iff_lt_or_eq.mp hv with hlt | rfl
    · rw [getD_set_ne _ _ _ _ _ (by omega)]
      exact hm2c v hlt
    · rw [getD_set_self _ _ _ _ (by omega), hvi]
  · intro c x hcx
    simp only [reindexStep] at hcx
    rw [hvi] at hcx
    by_cases hc : c = m2cSpec pinned m
    · subst hc
      rw [getD_set_self _ _ _ _ (by omega)] at hcx
      obtain rfl : m = x := by injection hcx
      exact ⟨by omega, rfl⟩
    · rw [getD_set_ne _ _ _ _ _ (fun hh => hc hh.symm)] at hcx
      obtain ⟨h1, h2⟩ := hc2mAll c x hcx
      exact ⟨by omega, h2⟩
  · intro v hv
    simp only [reindexStep]
    rw [hvi]
    rcases Nat.lt_succ_iff_lt_or_eq.mp hv with hlt | rfl
    · have hne : m2cSpec pinned m ≠ m2cSpec pinned v := by
        intro hh
        exact absurd (m2cSpec_inj pinned m v hm (by omega) hh) (by omega)
      rw [getD_set_ne _ _ _ _ _ hne]
      exact hc2m v hlt
    · rw [getD_set_self _ _ _ _ (by omega)]

theorem reindexVertices_inv (pinned : List Bool) (positions : List Vec3) :
    ReindexInv pinned pinned.length (reindexVertices pinned positions) := by
  rw [reindexVertices]
  suffices h : ∀ m, m ≤ pinned.length →
      ReindexInv pinned m ((List.range m).foldl (reindexStep pinned positions)
        { m2c := List.replicate pinned.length none
          c2m := List.replicate pinned.length none
          verts := List.replicate pinned.length none
          pinIdx := 0
          unpinIdx := numPinned pinned }) by
    exact h pinned.length le_rfl
  intro m
  induction m with
  | zero =>
    intro _
    refine ⟨by simp, by simp, rfl, by simp [rankUnpinnedBefore], ?_, ?_, ?_⟩
    · intro v hv
      omega
    · intro c x hcx
      simp only [List.range_zero, List.foldl_nil] at hcx
      rw [getD_replicate_none] at hcx
      exact absurd hcx (by simp)
    · intro v hv
      omega
  | succ m ih =>
    intro hm
    rw [List.range_succ, List.foldl_append, List.foldl_cons, List.foldl_nil]
    exact reindexStep_inv pinned positions m (by omega) _ (ih (by omega))

/-- C7: the reindexing gives pinned vertices the cloth indices
`[0, numPinned)` and unpinned vertices `[numPinned, n)`, each preserving the
original relative mesh order, and `mesh_to_cloth_vertex_map` /
`cloth_to_mesh_vertex_map` are mutually inverse bijections on `[0, n)`. -/
theorem cloth_vertex_reindexing_spec (pinned : List Bool) (positions : List Vec3) :
    (∀ v, v < pinned.length →
      (reindexVertices pinned positions).m2c.getD v none = some (m2cSpec pinned v)) ∧
    (∀ v, v < pinned.length → pinned.getD v false = true →
      m2cSpec pinned v < numPinned pinned) ∧
    (∀ v, v < pinned.length → pinned.getD v false = false →
      numPinned pinned ≤ m2cSpec pinned v ∧ m2cSpec pinned v < pinned.length) ∧
    (∀ v w, v < w → w < pinned.length →
      pinned.getD v false = pinned.getD w false →
      m2cSpec pinned v < m2cSpec pinned w) ∧
    (∀ v, v < pinned.length →
      (reindexVertices pinned positions).c2m.getD (m2cSpec pinned v) none = some v) ∧
    (∀ c, c < pinned.length → ∃ v, v < pinned.length ∧ m2cSpec pinned v = c ∧
      (reindexVertices pinned positions).c2m.getD c none = some v) ∧
    (∀ c v, (reindexVertices pinned positions).c2m.getD c none = some v →
      v < pinned.length ∧ m2cSpec pinned v = c ∧
      (reindexVertices pinned positions).m2c.getD v none = some c) := by
  obtain ⟨hl1, hl2, hpin, hunpin, hm2c, hc2mAll, hc2m⟩ :=
    reindexVertices_inv pinned positions
  refine ⟨hm2c, ?_, ?_,
    fun v w hvw _ hsame => m2cSpec_strictMono pinned v w hvw hsame, hc2m, ?_, ?_⟩
  · intro v hv hp
    rw [m2cSpec, if_pos hp]
    exact rankPinnedBefore_lt_numPinned pinned v hv hp
  · intro v hv hp
    constructor
    · rw [m2cSpec, hp]
      simp
    · exact m2cSpec_lt_length pinned v hv
  · intro c hc
    obtain ⟨v, hv, hspec⟩ := m2cSpec_surj pinned c hc
    refine ⟨v, hv, hspec, ?_⟩
    rw [← hspec]
    exact hc2m v hv
  · intro c v hcv
    obtain ⟨h1, h2⟩ := hc2mAll c v hcv
    refine ⟨h1, h2, ?_⟩
    rw [hm2c v h1, h2]

/-- Witness for C7 at the spec example: 5 vertices, vertices 1 and 3 pinned. -/
theorem cloth_vertex_reindexing_spec_witness :
    ((∀ v, v < ([false, true, false, true, false] : List Bool).length →
      (reindexVertices [false, true, false, true, false] []).m2c.getD v none =
        some (m2cSpec [false, true, false, true, false] v)) ∧
    (∀ v, v < ([false, true, false, true, false] : List Bool).length →
      ([false, true, false, true, false] : List Bool).getD v false = true →
      m2cSpec [false, true, false, true, false] v <
        numPinned [false, true, false, true, false]) ∧
    (∀ v, v < ([false, true, false, true, false] : List Bool).length →
      ([false, true, false, true, false] : List Bool).getD v false = false →
      numPinned [false, true, false, true, false] ≤
        m2cSpec [false, true, false, true, false] v ∧
      m2cSpec [false, true, false, true, false] v <
        ([false, true, false, true, false] : List Bool).length) ∧
    (∀ v w, v < w → w < ([false, true, false, true, false] : List Bool).length →
      ([false, true, false, true, false] : List Bool).getD v false =
        ([false, true, false, true, false] : List Bool).getD w false →
      m2cSpec [false, true, false, true, false] v <
        m2cSpec [false, true, false, true, false] w) ∧
    (∀ v, v < ([false, true, false, true, false] : List Bool).length →
      (reindexVertices [false, true, false, true, false] []).c2m.getD
        (m2cSpec [false, true, false, true, false] v) none = some v) ∧
    (∀ c, c < ([false, true, false, true, false] : List Bool).length →
      ∃ v, v < ([false, true, false, true, false] : List Bool).length ∧
        m2cSpec [false, true, false, true, false] v = c ∧
        (reindexVertices [false, true, false, true, false] []).c2m.getD c none =
          some v) ∧
    (∀ c v, (reindexVertices [false, true, false, true, false] []).c2m.getD c none =
        some v →
      v < ([false, true, false, true, false] : List Bool).length ∧
      m2cSpec [false, true, false, true, false] v = c ∧
      (reindexVertices [false, true, false, true, false] []).m2c.getD v none =
        some c)) ∧
    (reindexVertices [false, true, false, true, false] []).c2m.getD 0 none = some 1 ∧
    (reindexVertices [false, true, false, true, false] []).c2m.getD 1 none = some 3 ∧
    (reindexVertices [false, true, false, true, false] []).m2c.getD 1 none = some 0 ∧
    (reindexVertices [false, true, false, true, false] []).m2c.getD 3 none = some 1 :=
  ⟨cloth_vertex_reindexing_spec [false, true, false, true, false] [],
   by decide, by decide, by decide, by decide⟩



/-! ## Cloth edge construction (`create_frag_env_cloth`, yftexport.py 1342-1360)

For every loop triangle the loop visits the three directed vertex pairs,
skips pairs already emitted in either orientation and pairs whose endpoints
are both pinned, and otherwise emits a `VerletClothEdge` and records the pair
in the `edges_added` set. -/

structure VerletClothEdge where
  vertex0 : Nat
  vertex1 : Nat
  length_sqr : ℚ
  weight0 : ℚ
  compression_weight : ℚ
deriving DecidableEq

instance : Inhabited VerletClothEdge := ⟨⟨0, 0, 0, 0, 0⟩⟩

structure ClothMeshTri where
  v0 : Nat
  v1 : Nat
  v2 : Nat
deriving DecidableEq

/-- The three directed edges `(v0,v1), (v1,v2), (v2,v0)` of a loop triangle. -/
def triDirectedEdges (t : ClothMeshTri) : List (Nat × Nat) :=
  [(t.v0, t.v1), (t.v1, t.v2), (t.v2, t.v0)]

/-- The `VerletClothEdge` built for the mesh-vertex pair `p` (lines 1353-1358):
cloth endpoint indices via `mesh_to_cloth_vertex_map`, squared rest length from
the cloth-ordered `vertices` positions, pin-dependent weight and the fixed
placeholder compression weight 0.25. -/
def mkVerletEdge (pinned : List Bool) (m2c : List Nat) (verts : List Vec3)
    (p : Nat × Nat) : VerletClothEdge :=
  { vertex0 := m2c.getD p.1 0
    vertex1 := m2c.getD p.2 0
    length_sqr := ((verts.getD (m2c.getD p.1 0) default).sub
      (verts.getD (m2c.getD p.2 0) default)).lengthSquared
    weight0 := if pinned.getD p.1 false then 0
      else if pinned.getD p.2 false then 1 else 1/2
    compression_weight := 1/4 }

/-- One directed-edge iteration of the edge-building loop. -/
def edgeBuildStep (pinned : List Bool) (m2c : List Nat) (verts : List Vec3)
    (st : List VerletClothEdge × List (Nat × Nat)) (p : Nat × Nat) :
    List VerletClothEdge × List (Nat × Nat) :=
  if st.2.contains p || st.2.contains (p.2, p.1) then st
  else if pinned.getD p.1 false && pinned.getD p.2 false then st
  else (st.1 ++ [mkVerletEdge pinned m2c verts p], st.2 ++ [p])

/-- The edge-building double loop over triangles and their directed edges;
returns `(edges, edges_added)`. -/
def buildClothEdges (pinned : List Bool) (m2c : List Nat) (verts : List Vec3)
    (triangles : List ClothMeshTri) :
    List VerletClothEdge × List (Nat × Nat) :=
  triangles.foldl
    (fun st t => (triDirectedEdges t).foldl (edgeBuildStep pinned m2c verts) st)
    ([], [])

theorem foldl_flatMap_eq {α β γ : Type} (f : γ → β → γ) (g : α → List β) :
    ∀ (l : List α) (init : γ),
      (l.flatMap g).foldl f init = l.foldl (fun st a => (g a).foldl f st) init
  | [], _ => rfl
  | a :: l, init => by
    rw [List.flatMap_cons, List.foldl_append, List.foldl_cons,
      foldl_flatMap_eq f g l]

/-- Invariant of the edge-building loop: emitted edges correspond 1-1 to the
recorded pairs, pairs are distinct as unordered pairs, never both-pinned, and
all drawn from the pair pool `P`. -/
def EdgeBuildInv (pinned : List Bool) (m2c : List Nat) (verts : List Vec3)
    (P : List (Nat × Nat)) (st : List VerletClothEdge × List (Nat × Nat)) : Prop :=
  st.1 = st.2.map (mkVerletEdge pinned m2c verts) ∧
  st.2.Pairwise (fun q p => q ≠ p ∧ q ≠ (p.2, p.1)) ∧
  (∀ p ∈ st.2, ¬(pinned.getD p.1 false = true ∧ pinned.getD p.2 false = true)) ∧
  (∀ p ∈ st.2, p ∈ P)

theorem edgeBuildStep_inv (pinned : List Bool) (m2c : List Nat) (verts : List Vec3)
    (P : List (Nat × Nat)) (st : List VerletClothEdge × List (Nat × Nat))
    (p : Nat × Nat) (hp : p ∈ P)
    (h : EdgeBuildInv pinned m2c verts P st) :
    EdgeBuildInv pinned m2c verts P (edgeBuildStep pinned m2c verts st p) := by
  obtain ⟨h1, h2, h3, h4⟩ := h
  rw [edgeBuildStep]
  by_cases hseen : (st.2.contains p || st.2.contains (p.2, p.1)) = true
  · rw [if_pos hseen]
    exact ⟨h1, h2, h3, h4⟩
  · rw [if_neg hseen]
    by_cases hpin : (pinned.getD p.1 false && pinned.getD p.2 false) = true
    · rw [if_pos hpin]
      exact ⟨h1, h2, h3, h4⟩
    · rw [if_neg hpin]
      have hnotmem : p ∉ st.2 ∧ (p.2, p.1) ∉ st.2 := by
        rw [Bool.or_eq_true, not_or] at hseen
        obtain ⟨hs1, hs2⟩ := hseen
        constructor
        · intro hmem
          exact hs1 (List.elem_iff.mpr hmem)
        · intro hmem
          exact hs2 (List.elem_iff.mpr hmem)
      refine ⟨?_, ?_, ?_, ?_⟩
      · rw [h1, List.map_append]
        rfl
      · rw [List.pairwise_append]
        refine ⟨h2, List.pairwise_singleton _ _, ?_⟩
        intro q hq p2 hp2
        rw [List.mem_singleton] at hp2
        subst hp2
        constructor
        · intro hqp
          subst hqp
          exact hnotmem.1 hq
        · intro hqp
          rw [hqp] at hq
          exact hnotmem.2 hq
      · intro q hq
        rw [List.mem_append, List.mem_singleton] at hq
        rcases hq with hq | rfl
        · exact h3 q hq
        · intro hboth
          rw [Bool.and_eq_true] at hpin
          exact hpin ⟨hboth.1, hboth.2⟩
      · intro q hq
        rw [List.mem_append, List.mem_singleton] at hq
        rcases hq with hq | rfl
        · exact h4 q hq
        · exact hp

theorem edgeBuild_fold_inv (pinned : List Bool) (m2c : List Nat) (verts : List Vec3)
    (P : List (Nat × Nat)) :
    ∀ (ps : List (Nat × Nat)) (st : List VerletClothEdge × List (Nat × Nat)),
      (∀ p ∈ ps, p ∈ P) → EdgeBuildInv pinned m2c verts P st →
      EdgeBuildInv pinned m2c verts P (ps.foldl (edgeBuildStep pinned m2c verts) st)
  | [], st, _, h => h
  | p :: ps, st, hps, h => by
    rw [List.foldl_cons]
    exact edgeBuild_fold_inv pinned m2c verts P ps _
      (fun q hq => hps q (List.mem_cons_of_mem _ hq))
      (edgeBuildStep_inv pinned m2c verts P st p (hps p (List.mem_cons_self _ _)) h)

/-- C6: the edge construction emits, per triangle, up to three undirected
edges deduplicated by unordered vertex pair, skips edges with both endpoints
pinned, and each emitted edge stores the cloth indices of its endpoints, the
squared Euclidean distance between the endpoint rest positions as
`length_sqr`, `weight0` 0 / 1 / 0.5 according to which endpoint is pinned, and
the fixed placeholder compression weight 0.25. -/
theorem cloth_edge_construction_spec (pinned : List Bool) (m2c : List Nat)
    (verts : List Vec3) (triangles : List ClothMeshTri) :
    (buildClothEdges pinned m2c verts triangles).1 =
      (buildClothEdges pinned m2c verts triangles).2.map
        (mkVerletEdge pinned m2c verts) ∧
    (∀ p : Nat × Nat, mkVerletEdge pinned m2c verts p =
      { vertex0 := m2c.getD p.1 0
        vertex1 := m2c.getD p.2 0
        length_sqr := ((verts.getD (m2c.getD p.1 0) default).sub
          (verts.getD (m2c.getD p.2 0) default)).lengthSquared
        weight0 := if pinned.getD p.1 false then 0
          else if pinned.getD p.2 false then 1 else 1/2
        compression_weight := 1/4 }) ∧
    (buildClothEdges pinned m2c verts triangles).2.Pairwise
      (fun q p => q ≠ p ∧ q ≠ (p.2, p.1)) ∧
    (∀ p ∈ (buildClothEdges pinned m2c verts triangles).2,
      ¬(pinned.getD p.1 false = true ∧ pinned.getD p.2 false = true)) ∧
    (∀ p ∈ (buildClothEdges pinned m2c verts triangles).2,
      ∃ t ∈ triangles, p ∈ triDirectedEdges t) := by
  have hfold : buildClothEdges pinned m2c verts triangles =
      (triangles.flatMap triDirectedEdges).foldl
        (edgeBuildStep pinned m2c verts) ([], []) := by
    rw [buildClothEdges, foldl_flatMap_eq]
  have hinv : EdgeBuildInv pinned m2c verts (triangles.flatMap triDirectedEdges)
      (buildClothEdges pinned m2c verts triangles) := by
    rw [hfold]
    exact edgeBuild_fold_inv pinned m2c verts _ _ _ (fun p hp => hp)
      ⟨rfl, List.Pairwise.nil, fun p hp => absurd hp (List.not_mem_nil p),
       fun p hp => absurd hp (List.not_mem_nil p)⟩
  obtain ⟨h1, h2, h3, h4⟩ := hinv
  refine ⟨h1, fun p => rfl, h2, h3, ?_⟩
  intro p hp
  exact List.mem_flatMap.mp (h4 p hp)

/-- Concrete cloth fixture for the C6 witness: one triangle, vertex 0 pinned. -/
def c6pinned : List Bool := [true, false, false]

def c6map : List Nat := [0, 1, 2]

def c6verts : List Vec3 := [⟨0, 0, 0⟩, ⟨1, 0, 0⟩, ⟨0, 1, 0⟩]

def c6tris : List ClothMeshTri := [⟨0, 1, 2⟩]

/-- Witness for C6 at a single triangle with vertex 0 pinned. -/
theorem cloth_edge_construction_spec_witness :
    ((buildClothEdges c6pinned c6map c6verts c6tris).1 =
      (buildClothEdges c6pinned c6map c6verts c6tris).2.map
        (mkVerletEdge c6pinned c6map c6verts) ∧
    (∀ p : Nat × Nat, mkVerletEdge c6pinned c6map c6verts p =
      { vertex0 := c6map.getD p.1 0
        vertex1 := c6map.getD p.2 0
        length_sqr := ((c6verts.getD (c6map.getD p.1 0) default).sub
          (c6verts.getD (c6map.getD p.2 0) default)).lengthSquared
        weight0 := if c6pinned.getD p.1 false then 0
          else if c6pinned.getD p.2 false then 1 else 1/2
        compression_weight := 1/4 }) ∧
    (buildClothEdges c6pinned c6map c6verts c6tris).2.Pairwise
      (fun q p => q ≠ p ∧ q ≠ (p.2, p.1)) ∧
    (∀ p ∈ (buildClothEdges c6pinned c6map c6verts c6tris).2,
      ¬(c6pinned.getD p.1 false = true ∧ c6pinned.getD p.2 false = true)) ∧
    (∀ p ∈ (buildClothEdges c6pinned c6map c6verts c6tris).2,
      ∃ t ∈ c6tris, p ∈ triDirectedEdges t)) ∧
    (buildClothEdges c6pinned c6map c6verts c6tris).2 = [(0, 1), (1, 2), (2, 0)] :=
  ⟨cloth_edge_construction_spec c6pinned c6map c6verts c6tris, by decide⟩


/-! ## Cloth edge bucketing (`create_frag_env_cloth`, yftexport.py 1365-1410)

Edges are packed into `len(edges) * 4` buckets of capacity 8 such that no two
edges in a bucket share a vertex: each edge goes into the first bucket with
spare capacity and no conflict.  Buckets `0 .. last_bucket_index` are then
emitted, each padded to exactly 8 entries with dummy edges. -/

def MAX_EDGES_IN_BUCKET : Nat := 8

/-- The conflict test of the inner loop (lines 1377-1378): the candidate edge
shares a vertex with an edge already in the bucket. -/
def edgesConflict (e eb : VerletClothEdge) : Bool :=
  e.vertex0 == eb.vertex0 || e.vertex0 == eb.vertex1 ||
  e.vertex1 == eb.vertex0 || e.vertex1 == eb.vertex1

/-- Whether the scan accepts bucket `b` for edge `e`: spare capacity and no
conflicting vertex. -/
def canAddToBucket (b : List VerletClothEdge) (e : VerletClothEdge) : Bool :=
  decide (b.length < MAX_EDGES_IN_BUCKET) && b.all (fun eb => !(edgesConflict e eb))

/-- Scan the buckets in order and append `e` to the first accepting one;
returns the bucket index and updated buckets, or `none` when every bucket
rejects `e` (the Python loop would then drop the edge silently). -/
def placeEdge (e : VerletClothEdge) :
    List (List VerletClothEdge) → Option (Nat × List (List VerletClothEdge))
  | [] => none
  | b :: bs =>
    if canAddToBucket b e then some (0, (b ++ [e]) :: bs)
    else
      match placeEdge e bs with
      | none => none
      | some (i, bs2) => some (i + 1, b :: bs2)

structure BucketState where
  buckets : List (List VerletClothEdge)
  lastBucketIndex : Int

/-- One iteration of the outer `for e in edges` loop, including the
`last_bucket_index` update. -/
def bucketStep (st : BucketState) (e : VerletClothEdge) : BucketState :=
  match placeEdge e st.buckets with
  | none => st
  | some (i, bs) =>
    { buckets := bs
      lastBucketIndex :=
        if st.lastBucketIndex < (i : Int) then (i : Int) else st.lastBucketIndex }

/-- The bucket-filling loop: `len(edges) * 4` empty buckets,
`last_bucket_index` starting at -1. -/
def bucketEdges (edges : List VerletClothEdge) : BucketState :=
  edges.foldl bucketStep
    { buckets := List.replicate (edges.length * 4) []
      lastBucketIndex := -1 }

/-- The dummy padding edge (lines 1398-1403). -/
def dummyClothEdge : VerletClothEdge :=
  { vertex0 := 0, vertex1 := 0, length_sqr := 100000000, weight0 := 0,
    compression_weight := 0 }

/-- The `for i in range(8)` padding loop for one bucket. -/
def padBucket (b : List VerletClothEdge) : List VerletClothEdge :=
  (List.range MAX_EDGES_IN_BUCKET).map
    (fun i => if i < b.length then b.getD i dummyClothEdge else dummyClothEdge)

/-- The final edge list: buckets `0 .. last_bucket_index`, each padded to 8
entries. -/
def packClothEdges (edges : List VerletClothEdge) : List VerletClothEdge :=
  let st := bucketEdges edges
  ((st.buckets.take ((st.lastBucketIndex + 1).toNat)).map padBucket).flatten

def countNonemptyBuckets (bs : List (List VerletClothEdge)) : Nat :=
  bs.countP (fun b => !b.isEmpty)

/-! ### Helper lemmas for bucketing -/

theorem edgesConflict_symm (e1 e2 : VerletClothEdge) :
    edgesConflict e1 e2 = edgesConflict e2 e1 := by
  rw [Bool.eq_iff_iff]
  simp only [edgesConflict, Bool.or_eq_true, beq_iff_eq]
  omega

theorem canAddToBucket_elim {b : List VerletClothEdge} {e : VerletClothEdge}
    (h : canAddToBucket b e = true) :
    b.length < MAX_EDGES_IN_BUCKET ∧ ∀ x ∈ b, edgesConflict e x = false := by
  rw [canAddToBucket, Bool.and_eq_true, decide_eq_true_eq, List.all_eq_true] at h
  refine ⟨h.1, fun x hx => ?_⟩
  have := h.2 x hx
  simpa using this

theorem canAddToBucket_nil (e : VerletClothEdge) :
    canAddToBucket [] e = true := rfl

theorem placeEdge_spec (e : VerletClothEdge) :
    ∀ (bs : List (List VerletClothEdge)) (i : Nat)
      (bs2 : List (List VerletClothEdge)),
      placeEdge e bs = some (i, bs2) →
      i < bs.length ∧ canAddToBucket (bs.getD i []) e = true ∧
      (∀ j, j < i → canAddToBucket (bs.getD j []) e = false) ∧
      bs2 = bs.set i (bs.getD i [] ++ [e])
  | [], i, bs2, h => by exact absurd h (by rw [placeEdge]; simp)
  | b :: bs, i, bs2, h => by
    rw [placeEdge] at h
    by_cases hcan : canAddToBucket b e = true
    · rw [if_pos hcan] at h
      obtain ⟨rfl, rfl⟩ : 0 = i ∧ (b ++ [e]) :: bs = bs2 := by
        constructor <;> (injection h with h2; cases h2; first | rfl | injection h)
      refine ⟨by simp, hcan, fun j hj => absurd hj (by omega), rfl⟩
    · rw [if_neg hcan] at h
      cases hrec : placeEdge e bs with
      | none =>
        rw [hrec] at h
        exact absurd h (by simp)
      | some pr =>
        obtain ⟨i0, bs0⟩ := pr
        rw [hrec] at h
        obtain ⟨rfl, rfl⟩ : i0 + 1 = i ∧ b :: bs0 = bs2 := by
          constructor <;> (injection h with h2; cases h2; first | rfl | injection h)
        obtain ⟨hi0, hcan0, hfirst0, hset0⟩ := placeEdge_spec e bs i0 bs0 hrec
        refine ⟨by simpa using hi0, hcan0, ?_, by rw [hset0]; rfl⟩
        intro j hj
        cases j with
        | zero =>
          simpa using (Bool.not_eq_true _).mp hcan
        | succ j0 =>
          exact hfirst0 j0 (by omega)

theorem placeEdge_none (e : VerletClothEdge) :
    ∀ (bs : List (List VerletClothEdge)), placeEdge e bs = none →
      ∀ b ∈ bs, canAddToBucket b e = false
  | [], _, b, hb => absurd hb (List.not_mem_nil b)
  | b0 :: bs, h, b, hb => by
    rw [placeEdge] at h
    by_cases hcan : canAddToBucket b0 e = true
    · rw [if_pos hcan] at h
      exact absurd h (by simp)
    · rw [if_neg hcan] at h
      cases hrec : placeEdge e bs with
      | none =>
        rcases List.mem_cons.mp hb with rfl | hb2
        · exact (Bool.not_eq_true _).mp hcan
        · exact placeEdge_none e bs hrec b hb2
      | some pr =>
        rw [hrec] at h
        obtain ⟨i0, bs0⟩ := pr
        exact absurd h (by simp)

theorem placeEdge_ne_none_of_empty (e : VerletClothEdge)
    (bs : List (List VerletClothEdge)) (h : [] ∈ bs) :
    placeEdge e bs ≠ none := by
  intro hn
  have := placeEdge_none e bs hn [] h
  rw [canAddToBucket_nil] at this
  exact absurd this (by simp)

theorem countP_set_le {α : Type} (p : α → Bool) :
    ∀ (l : List α) (i : Nat) (a : α),
      (l.set i a).countP p ≤ l.countP p + 1
  | [], _, _ => by simp
  | x :: xs, 0, a => by
    rw [List.set_cons_zero, List.countP_cons, List.countP_cons]
    by_cases hx : p x <;> by_cases ha : p a <;> simp [hx, ha] <;> omega
  | x :: xs, i + 1, a => by
    rw [List.set_cons_succ, List.countP_cons, List.countP_cons]
    have := countP_set_le p xs i a
    omega

theorem exists_empty_of_count_lt (bs : List (List VerletClothEdge))
    (h : countNonemptyBuckets bs < bs.length) : [] ∈ bs := by
  by_contra hnot
  have hall : ∀ b ∈ bs, (!b.isEmpty) = true := by
    intro b hb
    cases hbe : b.isEmpty
    · rfl
    · rw [List.isEmpty_iff] at hbe
      exact absurd (hbe ▸ hb) hnot
  rw [countNonemptyBuckets, List.countP_eq_length.mpr hall] at h
  omega

theorem getD_replicate {α : Type} (n i : Nat) (a : α) :
    (List.replicate n a).getD i a = a := by
  rw [List.getD_eq_getElem?_getD, List.getElem?_replicate]
  by_cases h : i < n <;> simp [h]

theorem padBucket_length (b : List VerletClothEdge) : (padBucket b).length = 8 := by
  rw [padBucket, List.length_map, List.length_range]
  rfl

theorem padBucket_eq (b : List VerletClothEdge)
    (h : b.length ≤ MAX_EDGES_IN_BUCKET) :
    padBucket b = b ++ List.replicate (8 - b.length) dummyClothEdge := by
  apply List.ext_getElem
  · rw [padBucket_length, List.length_append, List.length_replicate]
    rw [MAX_EDGES_IN_BUCKET] at h
    omega
  · intro i h1 h2
    rw [padBucket_length] at h1
    have hmap : (padBucket b)[i] =
        if i < b.length then b.getD i dummyClothEdge else dummyClothEdge := by
      simp only [padBucket, List.getElem_map, List.getElem_range]
    rw [hmap]
    by_cases hib : i < b.length
    · rw [if_pos hib, List.getElem_append_left hib, List.getD_eq_getElem _ _ hib]
    · rw [if_neg hib, List.getElem_append_right (by omega)]
      rw [List.getElem_replicate]

theorem flatten_pad_length (bs : List (List VerletClothEdge)) :
    ((bs.map padBucket).flatten).length = 8 * bs.length := by
  induction bs with
  | nil => rfl
  | cons b bs ih =>
    rw [List.map_cons, List.flatten_cons, List.length_append, padBucket_length,
      ih, List.length_cons]
    ring

theorem flatten_pad_chunk (bs : List (List VerletClothEdge)) :
    ∀ k, k < bs.length →
      (((bs.map padBucket).flatten).drop (8 * k)).take 8 = padBucket (bs.getD k []) := by
  induction bs with
  | nil =>
    intro k hk
    simp at hk
  | cons b bs ih =>
    intro k hk
    rw [List.map_cons, List.flatten_cons]
    cases k with
    | zero =>
      rw [Nat.mul_zero, List.drop_zero, List.take_left' (padBucket_length b)]
      rfl
    | succ k0 =>
      have hstep : List.drop 8 (padBucket b ++ (bs.map padBucket).flatten) =
          (bs.map padBucket).flatten := by
        rw [← padBucket_length b]
        exact List.drop_left _ _
      have h8 : 8 * (k0 + 1) = 8 + 8 * k0 := by ring
      rw [h8, ← List.drop_drop, hstep, ih k0 (by simpa using hk)]
      rfl

/-! ### The bucket loop invariant -/

def BucketInv (N : Nat) (processed : List VerletClothEdge) (st : BucketState) : Prop :=
  st.buckets.length = N ∧
  countNonemptyBuckets st.buckets ≤ processed.length ∧
  (-1 : Int) ≤ st.lastBucketIndex ∧
  (∀ j : Nat, st.lastBucketIndex < (j : Int) → st.buckets.getD j [] = []) ∧
  (∀ b ∈ st.buckets, b.length ≤ MAX_EDGES_IN_BUCKET ∧
    b.Pairwise (fun e1 e2 => edgesConflict e1 e2 = false)) ∧
  (∀ x ∈ processed, ∃ j, j < st.buckets.length ∧ x ∈ st.buckets.getD j [])

theorem bucketStep_inv (N : Nat) (processed : List VerletClothEdge)
    (st : BucketState) (e : VerletClothEdge) (hlen : processed.length < N)
    (h : BucketInv N processed st) :
    BucketInv N (processed ++ [e]) (bucketStep st e) := by
  obtain ⟨h1, h2, h3, h5, h6, h7⟩ := h
  have hempty : [] ∈ st.buckets :=
    exists_empty_of_count_lt st.buckets (by omega)
  cases hplace : placeEdge e st.buckets with
  | none => exact absurd hplace (placeEdge_ne_none_of_empty e st.buckets hempty)
  | some pr =>
    obtain ⟨i, bs2⟩ := pr
    obtain ⟨hi, hcan, hfirst, hset⟩ := placeEdge_spec e st.buckets i bs2 hplace
    obtain ⟨hcap, hconf⟩ := canAddToBucket_elim hcan
    have hbs : bucketStep st e =
        { buckets := bs2
          lastBucketIndex := if st.lastBucketIndex < (i : Int) then (i : Int)
            else st.lastBucketIndex } := by
      rw [bucketStep, hplace]
    rw [hbs]
    refine ⟨?_, ?_, ?_, ?_, ?_, ?_⟩
    · show bs2.length = N
      rw [hset, List.length_set]
      exact h1
    · show countNonemptyBuckets bs2 ≤ (processed ++ [e]).length
      rw [hset]
      calc countNonemptyBuckets (st.buckets.set i (st.buckets.getD i [] ++ [e])) ≤
          countNonemptyBuckets st.buckets + 1 := countP_set_le _ _ _ _
        _ ≤ processed.length + 1 := by omega
        _ = (processed ++ [e]).length := by simp
    · show (-1 : Int) ≤
        if st.lastBucketIndex < (i : Int) then (i : Int) else st.lastBucketIndex
      by_cases hgt : st.lastBucketIndex < (i : Int)
      · rw [if_pos hgt]
        omega
      · rw [if_neg hgt]
        omega
    · intro j
      show (if st.lastBucketIndex < (i : Int) then (i : Int)
          else st.lastBucketIndex) < (j : Int) → bs2.getD j [] = []
      intro hj
      by_cases hgt : st.lastBucketIndex < (i : Int)
      · rw [if_pos hgt] at hj
        rw [hset, getD_set_ne _ _ _ _ _ (by omega)]
        exact h5 j (by omega)
      · rw [if_neg hgt] at hj
        rw [hset, getD_set_ne _ _ _ _ _ (by omega)]
        exact h5 j (by omega)
    · intro b
      show b ∈ bs2 → _
      intro hb
      rw [hset] at hb
      rcases List.mem_or_eq_of_mem_set hb with hb2 | rfl
      · exact h6 b hb2
      · constructor
        · rw [List.length_append, List.length_singleton]
          rw [MAX_EDGES_IN_BUCKET] at hcap ⊢
          omega
        · rw [List.pairwise_append]
          refine ⟨(h6 _ (getD_mem_of_lt st.buckets i (by omega))).2,
            List.pairwise_singleton _ _, ?_⟩
          intro x hx y hy
          rw [List.mem_singleton] at hy
          subst hy
          rw [edgesConflict_symm]
          exact hconf x hx
    · intro x hx
      show ∃ j, j < bs2.length ∧ x ∈ bs2.getD j []
      rw [List.mem_append, List.mem_singleton] at hx
      rcases hx with hx | rfl
      · obtain ⟨j, hjlt, hjmem⟩ := h7 x hx
        by_cases hji : j = i
        · subst hji
          refine ⟨j, by rw [hset, List.length_set]; exact hjlt, ?_⟩
          rw [hset, getD_set_self _ _ _ _ (by omega)]
          exact List.mem_append_left _ hjmem
        · refine ⟨j, by rw [hset, List.length_set]; exact hjlt, ?_⟩
          rw [hset, getD_set_ne _ _ _ _ _ (fun hh => hji hh.symm)]
          exact hjmem
      · refine ⟨i, by rw [hset, List.length_set]; exact hi, ?_⟩
        rw [hset, getD_set_self _ _ _ _ (by omega)]
        exact List.mem_append_right _ (List.mem_singleton_self _)

theorem bucketFold_inv (N : Nat) :
    ∀ (rest processed : List VerletClothEdge) (st : BucketState),
      processed.length + rest.length ≤ N → BucketInv N processed st →
      BucketInv N (processed ++ rest) (rest.foldl bucketStep st)
  | [], processed, st, _, h => by simpa using h
  | e :: rest, processed, st, hlen, h => by
    rw [List.foldl_cons]
    have hstep : BucketInv N (processed ++ [e]) (bucketStep st e) :=
      bucketStep_inv N processed st e (by simp at hlen; omega) h
    have hrec := bucketFold_inv N rest (processed ++ [e]) (bucketStep st e)
      (by simp at hlen ⊢; omega) hstep
    simpa [List.append_assoc] using hrec

theorem bucketEdges_inv (edges : List VerletClothEdge) :
    BucketInv (edges.length * 4) edges (bucketEdges edges) := by
  have hbase : BucketInv (edges.length * 4) []
      { buckets := List.replicate (edges.length * 4) []
        lastBucketIndex := -1 } := by
    refine ⟨by simp, ?_, by norm_num, ?_, ?_, ?_⟩
    · show countNonemptyBuckets (List.replicate (edges.length * 4) []) ≤
        ([] : List VerletClothEdge).length
      have hz : countNonemptyBuckets (List.replicate (edges.length * 4) []) = 0 := by
        rw [countNonemptyBuckets, List.countP_eq_zero]
        intro b hb
        rw [List.eq_of_mem_replicate hb]
        simp
      rw [hz]
      exact Nat.zero_le _
    · intro j _
      exact getD_replicate _ _ _
    · intro b hb
      rw [List.eq_of_mem_replicate hb]
      exact ⟨by simp [MAX_EDGES_IN_BUCKET], List.Pairwise.nil⟩
    · intro x hx
      exact absurd hx (List.not_mem_nil x)
  have := bucketFold_inv (edges.length * 4) edges [] _ (by simp; omega) hbase
  simpa [bucketEdges] using this

/-- C5: in `packClothEdges`, the output consists of consecutive 8-entry
buckets; the kept buckets hold at most 8 pairwise non-conflicting real edges
and are padded to exactly 8 entries with dummy edges referencing vertex 0;
`placeEdge` puts an edge into the first bucket with spare capacity and no
vertex conflict; and every input edge appears in the output. -/
theorem cloth_edge_bucketing_spec (edges : List VerletClothEdge) :
    (packClothEdges edges).length % 8 = 0 ∧
    (∀ k, k < ((bucketEdges edges).buckets.take
        (((bucketEdges edges).lastBucketIndex + 1).toNat)).length →
      ((packClothEdges edges).drop (8 * k)).take 8 =
        padBucket (((bucketEdges edges).buckets.take
          (((bucketEdges edges).lastBucketIndex + 1).toNat)).getD k [])) ∧
    (∀ b ∈ (bucketEdges edges).buckets.take
        (((bucketEdges edges).lastBucketIndex + 1).toNat),
      b.length ≤ MAX_EDGES_IN_BUCKET ∧
      b.Pairwise (fun e1 e2 => edgesConflict e1 e2 = false) ∧
      padBucket b = b ++ List.replicate (8 - b.length) dummyClothEdge) ∧
    dummyClothEdge.vertex0 = 0 ∧ dummyClothEdge.vertex1 = 0 ∧
    (∀ (bs : List (List VerletClothEdge)) (e : VerletClothEdge) (i : Nat)
      (bs2 : List (List VerletClothEdge)),
      placeEdge e bs = some (i, bs2) →
      i < bs.length ∧ canAddToBucket (bs.getD i []) e = true ∧
      (∀ j, j < i → canAddToBucket (bs.getD j []) e = false) ∧
      bs2 = bs.set i (bs.getD i [] ++ [e])) ∧
    (∀ e ∈ edges, e ∈ packClothEdges edges) := by
  obtain ⟨h1, h2, h3, h5, h6, h7⟩ := bucketEdges_inv edges
  have hpack : packClothEdges edges =
      (((bucketEdges edges).buckets.take
        (((bucketEdges edges).lastBucketIndex + 1).toNat)).map padBucket).flatten := rfl
  have hsub : ∀ b ∈ (bucketEdges edges).buckets.take
      (((bucketEdges edges).lastBucketIndex + 1).toNat), b ∈ (bucketEdges edges).buckets :=
    fun b hb => List.take_subset _ _ hb
  refine ⟨?_, ?_, ?_, rfl, rfl, fun bs e i bs2 hp => placeEdge_spec e bs i bs2 hp, ?_⟩
  · rw [hpack, flatten_pad_length]
    omega
  · intro k hk
    rw [hpack]
    exact flatten_pad_chunk _ k hk
  · intro b hb
    obtain ⟨hle, hpw⟩ := h6 b (hsub b hb)
    exact ⟨hle, hpw, padBucket_eq b hle⟩
  · intro e he
    obtain ⟨j, hjlt, hjmem⟩ := h7 e he
    have hbne : (bucketEdges edges).buckets.getD j [] ≠ [] := by
      intro hnil
      rw [hnil] at hjmem
      exact absurd hjmem (List.not_mem_nil e)
    have hjle : (j : Int) ≤ (bucketEdges edges).lastBucketIndex := by
      by_contra hgt
      exact hbne (h5 j (by omega))
    have hjtake : j < (((bucketEdges edges).lastBucketIndex + 1).toNat) := by
      omega
    have htlen : j < ((bucketEdges edges).buckets.take
        (((bucketEdges edges).lastBucketIndex + 1).toNat)).length := by
      rw [List.length_take]
      omega
    have hgetD : ((bucketEdges edges).buckets.take
        (((bucketEdges edges).lastBucketIndex + 1).toNat)).getD j [] =
        (bucketEdges edges).buckets.getD j [] := by
      rw [List.getD_eq_getElem _ _ htlen, List.getD_eq_getElem _ _ hjlt]
      exact List.getElem_take _
    rw [hpack, List.mem_flatten]
    refine ⟨padBucket ((bucketEdges edges).buckets.getD j []), ?_, ?_⟩
    · rw [← hgetD]
      apply List.mem_map_of_mem
      rw [List.getD_eq_getElem _ _ htlen]
      exact List.getElem_mem htlen
    · have hmem : (bucketEdges edges).buckets.getD j [] ∈ (bucketEdges edges).buckets := by
        rw [List.getD_eq_getElem _ _ hjlt]
        exact List.getElem_mem hjlt
      rw [padBucket_eq _ (h6 _ hmem).1]
      exact List.mem_append_left _ hjmem

/-- Witness for C5 at a concrete edge list (three edges sharing vertices). -/
theorem cloth_edge_bucketing_spec_witness :
    ((packClothEdges [⟨0, 1, 1, 0, 0⟩, ⟨1, 2, 1, 0, 0⟩, ⟨3, 4, 1, 0, 0⟩]).length % 8 = 0 ∧
    (∀ k, k < ((bucketEdges [⟨0, 1, 1, 0, 0⟩, ⟨1, 2, 1, 0, 0⟩, ⟨3, 4, 1, 0, 0⟩]).buckets.take
        (((bucketEdges [⟨0, 1, 1, 0, 0⟩, ⟨1, 2, 1, 0, 0⟩, ⟨3, 4, 1, 0, 0⟩]).lastBucketIndex + 1).toNat)).length →
      ((packClothEdges [⟨0, 1, 1, 0, 0⟩, ⟨1, 2, 1, 0, 0⟩, ⟨3, 4, 1, 0, 0⟩]).drop (8 * k)).take 8 =
        padBucket (((bucketEdges [⟨0, 1, 1, 0, 0⟩, ⟨1, 2, 1, 0, 0⟩, ⟨3, 4, 1, 0, 0⟩]).buckets.take
          (((bucketEdges [⟨0, 1, 1, 0, 0⟩, ⟨1, 2, 1, 0, 0⟩, ⟨3, 4, 1, 0, 0⟩]).lastBucketIndex + 1).toNat)).getD k [])) ∧
    (∀ b ∈ (bucketEdges [⟨0, 1, 1, 0, 0⟩, ⟨1, 2, 1, 0, 0⟩, ⟨3, 4, 1, 0, 0⟩]).buckets.take
        (((bucketEdges [⟨0, 1, 1, 0, 0⟩, ⟨1, 2, 1, 0, 0⟩, ⟨3, 4, 1, 0, 0⟩]).lastBucketIndex + 1).toNat),
      b.length ≤ MAX_EDGES_IN_BUCKET ∧
      b.Pairwise (fun e1 e2 => edgesConflict e1 e2 = false) ∧
      padBucket b = b ++ List.replicate (8 - b.length) dummyClothEdge) ∧
    dummyClothEdge.vertex0 = 0 ∧ dummyClothEdge.vertex1 = 0 ∧
    (∀ (bs : List (List VerletClothEdge)) (e : VerletClothEdge) (i : Nat)
      (bs2 : List (List VerletClothEdge)),
      placeEdge e bs = some (i, bs2) →
      i < bs.length ∧ canAddToBucket (bs.getD i []) e = true ∧
      (∀ j, j < i → canAddToBucket (bs.getD j []) e = false) ∧
      bs2 = bs.set i (bs.getD i [] ++ [e])) ∧
    (∀ e ∈ ([⟨0, 1, 1, 0, 0⟩, ⟨1, 2, 1, 0, 0⟩, ⟨3, 4, 1, 0, 0⟩] : List VerletClothEdge),
      e ∈ packClothEdges [⟨0, 1, 1, 0, 0⟩, ⟨1, 2, 1, 0, 0⟩, ⟨3, 4, 1, 0, 0⟩])) ∧
    (packClothEdges [⟨0, 1, 1, 0, 0⟩, ⟨1, 2, 1, 0, 0⟩, ⟨3, 4, 1, 0, 0⟩]).length = 16 :=
  ⟨cloth_edge_bucketing_spec [⟨0, 1, 1, 0, 0⟩, ⟨1, 2, 1, 0, 0⟩, ⟨3, 4, 1, 0, 0⟩],
   by decide⟩



/-! ## Link formation (`calculate_physics_lod_transforms`, yftexport.py 511-596)

Groups are partitioned into links: the root link is at index 0; a group whose
first child's backing bone forms a joint (rotation/translation limit) starts a
new link, any other group with a parent is appended to the link recorded for
its parent (`link_index_by_group`, initialised to -1 and indexed with Python
semantics, so a forward parent reads -1 and appends to the *last* link). -/

structure PhysCtx where
  groups : List PhysicsGroup
  children : List PhysicsChild
  bones : List Bone
  rotation_limits : List JointLimit
  translation_limits : List JointLimit
  bounds : List (Option BoundChild)
  unknown_50 : Vec3

/-- `children_by_group[group][0]`: the first physics child of group `gi` in
child order. -/
def firstChildOfGroup (ctx : PhysCtx) (gi : Nat) : Option PhysicsChild :=
  ctx.children.find? (fun c => c.group_index == gi)

/-- `next(b for b in bones_xml if b.tag == ...)`. -/
def boneByTag (ctx : PhysCtx) (tag : Nat) : Option Bone :=
  ctx.bones.find? (fun b => b.tag == tag)

/-- Lines 537-542: whether group `gi` starts a new link.  The Python raises
when the group has no child or its first child's bone tag matches no bone;
the model returns `false` there (the claims assume those lookups succeed). -/
def createsNewLink (ctx : PhysCtx) (gi : Nat) : Bool :=
  match firstChildOfGroup ctx gi with
  | none => false
  | some c =>
    match boneByTag ctx c.bone_tag with
    | none => false
    | some bone =>
      (bone.flags.contains "LimitRotation" &&
        ctx.rotation_limits.any (fun rl => rl.bone_id == bone.tag)) ||
      (bone.flags.contains "LimitTranslation" &&
        ctx.translation_limits.any (fun tl => tl.bone_id == bone.tag))

/-- Python list indexing: a negative index counts from the end. -/
def pyIdx (len : Nat) (li : Int) : Nat :=
  if li < 0 then len - (-li).toNat else li.toNat

structure LinkState where
  links : List (List Nat)
  linkIndexByGroup : List Int

/-- One iteration of the link-forming loop (lines 533-552): pick the link
index (0 for root groups, a fresh index for joint groups — appending a new
empty link — and the parent's recorded index otherwise), then append the group
to that link and record its index. -/
def linkStep (ctx : PhysCtx) (st : LinkState) (gi : Nat) : LinkState :=
  let g := ctx.groups.getD gi default
  let li : Int :=
    if g.parent_index ≠ 255 then
      if createsNewLink ctx gi then (st.links.length : Int)
      else st.linkIndexByGroup.getD g.parent_index (-1)
    else 0
  let links1 :=
    if g.parent_index ≠ 255 ∧ createsNewLink ctx gi = true then st.links ++ [[]]
    else st.links
  let idx := pyIdx links1.length li
  { links := links1.set idx (links1.getD idx [] ++ [gi])
    linkIndexByGroup := st.linkIndexByGroup.set gi li }

/-- The link-forming loop over all groups: `links = [[]]` (the root link) and
`link_index_by_group = [-1] * len(groups)` initially. -/
def calculateLinks (ctx : PhysCtx) : LinkState :=
  (List.range ctx.groups.length).foldl (linkStep ctx)
    { links := [[]]
      linkIndexByGroup := List.replicate ctx.groups.length (-1) }

theorem pyIdx_nonneg (len : Nat) (li : Int) (h : 0 ≤ li) :
    pyIdx len li = li.toNat := by
  rw [pyIdx, if_neg (by omega)]

theorem head_append_singleton {α : Type} (b : List α) (x : α) (h : b ≠ []) :
    (b ++ [x]).head? = b.head? := by
  cases b with
  | nil => exact absurd rfl h
  | cons a t => rfl

theorem linkStep_root (ctx : PhysCtx) (st : LinkState) (gi : Nat)
    (hroot : (ctx.groups.getD gi default).parent_index = 255) :
    linkStep ctx st gi =
      { links := st.links.set 0 (st.links.getD 0 [] ++ [gi])
        linkIndexByGroup := st.linkIndexByGroup.set gi 0 } := by
  rw [linkStep]
  simp only [hroot, ne_eq, not_true_eq_false, if_false, false_and,
    if_neg (by omega : ¬((0 : Int) < 0))]
  rfl

theorem linkStep_creates (ctx : PhysCtx) (st : LinkState) (gi : Nat)
    (hpar : (ctx.groups.getD gi default).parent_index ≠ 255)
    (hcr : createsNewLink ctx gi = true) :
    linkStep ctx st gi =
      { links := (st.links ++ [[]]).set st.links.length [gi]
        linkIndexByGroup := st.linkIndexByGroup.set gi (st.links.length : Int) } := by
  rw [linkStep]
  simp only [hpar, ne_eq, not_false_eq_true, if_true, hcr, and_self, if_pos]
  have hidx : pyIdx (st.links ++ [[]]).length (st.links.length : Int) =
      st.links.length := by
    rw [pyIdx_nonneg _ _ (by omega)]
    rfl
  rw [hidx]
  have hempty : (st.links ++ [[]]).getD st.links.length [] = [] := by
    rw [List.getD_append_right _ _ _ _ le_rfl, Nat.sub_self]
    rfl
  rw [hempty]
  rfl

theorem linkStep_join (ctx : PhysCtx) (st : LinkState) (gi : Nat)
    (hpar : (ctx.groups.getD gi default).parent_index ≠ 255)
    (hcr : createsNewLink ctx gi = false) :
    linkStep ctx st gi =
      { links := st.links.set
          (pyIdx st.links.length
            (st.linkIndexByGroup.getD (ctx.groups.getD gi default).parent_index (-1)))
          (st.links.getD
            (pyIdx st.links.length
              (st.linkIndexByGroup.getD (ctx.groups.getD gi default).parent_index (-1)))
            [] ++ [gi])
        linkIndexByGroup := st.linkIndexByGroup.set gi
          (st.linkIndexByGroup.getD (ctx.groups.getD gi default).parent_index (-1)) } := by
  rw [linkStep]
  simp only [hpar, ne_eq, not_false_eq_true, if_true, hcr, Bool.false_eq_true,
    and_false, if_false]



/-! ### The link-forming loop invariant -/

def LinkInv (ctx : PhysCtx) (k : Nat) (st : LinkState) : Prop :=
  1 ≤ st.links.length ∧
  st.linkIndexByGroup.length = ctx.groups.length ∧
  (∀ j, k ≤ j → st.linkIndexByGroup.getD j (-1) = -1) ∧
  (∀ j, j < k → 0 ≤ st.linkIndexByGroup.getD j (-1) ∧
    st.linkIndexByGroup.getD j (-1) < (st.links.length : Int)) ∧
  (∀ j, j < k → j ∈ st.links.getD (st.linkIndexByGroup.getD j (-1)).toNat []) ∧
  (∀ j, j < k → (ctx.groups.getD j default).parent_index = 255 →
    st.linkIndexByGroup.getD j (-1) = 0) ∧
  (∀ j, j < k → (ctx.groups.getD j default).parent_index ≠ 255 →
    createsNewLink ctx j = true →
    1 ≤ st.linkIndexByGroup.getD j (-1) ∧
    (st.links.getD (st.linkIndexByGroup.getD j (-1)).toNat []).head? = some j) ∧
  (∀ j, j < k → (ctx.groups.getD j default).parent_index ≠ 255 →
    createsNewLink ctx j = false →
    st.linkIndexByGroup.getD j (-1) =
      st.linkIndexByGroup.getD (ctx.groups.getD j default).parent_index (-1))

theorem linkStep_inv (ctx : PhysCtx) (k : Nat) (st : LinkState)
    (hk : k < ctx.groups.length)
    (hparents : ∀ j, j < ctx.groups.length →
      (ctx.groups.getD j default).parent_index ≠ 255 →
      (ctx.groups.getD j default).parent_index < j)
    (h : LinkInv ctx k st) :
    LinkInv ctx (k + 1) (linkStep ctx st k) := by
  obtain ⟨h1, h2, h3, h4, h5, h6, h7, h8⟩ := h
  by_cases hroot : (ctx.groups.getD k default).parent_index = 255
  · rw [linkStep_root ctx st k hroot]
    have hlibne : ∀ j : Nat, j ≠ k →
        (st.linkIndexByGroup.set k 0).getD j (-1) =
          st.linkIndexByGroup.getD j (-1) :=
      fun j hj => getD_set_ne st.linkIndexByGroup k j 0 (-1) (fun hh => hj hh.symm)
    have hlibk : (st.linkIndexByGroup.set k 0).getD k (-1) = 0 :=
      getD_set_self st.linkIndexByGroup k 0 (-1) (by omega)
    have hlinksD : ∀ i : Nat, i ≠ 0 →
        (st.links.set 0 (st.links.getD 0 [] ++ [k])).getD i [] =
          st.links.getD i [] :=
      fun i hi => getD_set_ne st.links 0 i _ [] (fun hh => hi hh.symm)
    have hlinks0 : (st.links.set 0 (st.links.getD 0 [] ++ [k])).getD 0 [] =
        st.links.getD 0 [] ++ [k] :=
      getD_set_self st.links 0 _ [] (by omega)
    refine ⟨by simpa using h1, by simpa using h2, ?_, ?_, ?_, ?_, ?_, ?_⟩
    · intro j hj
      show (st.linkIndexByGroup.set k 0).getD j (-1) = -1
      rw [hlibne j (by omega)]
      exact h3 j (by omega)
    · intro j hj
      show 0 ≤ (st.linkIndexByGroup.set k 0).getD j (-1) ∧
        (st.linkIndexByGroup.set k 0).getD j (-1) <
          ((st.links.set 0 (st.links.getD 0 [] ++ [k])).length : Int)
      rw [List.length_set]
      rcases Nat.lt_succ_iff_lt_or_eq.mp hj with hlt | heq
      · rw [hlibne j (by omega)]
        exact h4 j hlt
      · subst heq
        rw [hlibk]
        omega
    · intro j hj
      show j ∈ (st.links.set 0 (st.links.getD 0 [] ++ [k])).getD
        ((st.linkIndexByGroup.set k 0).getD j (-1)).toNat []
      rcases Nat.lt_succ_iff_lt_or_eq.mp hj with hlt | heq
      · rw [hlibne j (by omega)]
        by_cases h0 : (st.linkIndexByGroup.getD j (-1)).toNat = 0
        · rw [h0, hlinks0]
          exact List.mem_append_left _ (h0 ▸ h5 j hlt)
        · rw [hlinksD _ h0]
          exact h5 j hlt
      · subst heq
        rw [hlibk]
        rw [show ((0 : Int)).toNat = 0 from rfl, hlinks0]
        exact List.mem_append_right _ (List.mem_singleton_self _)
    · intro j hj hr
      show (st.linkIndexByGroup.set k 0).getD j (-1) = 0
      rcases Nat.lt_succ_iff_lt_or_eq.mp hj with hlt | heq
      · rw [hlibne j (by omega)]
        exact h6 j hlt hr
      · subst heq
        exact hlibk
    · intro j hj hr hcr
      rcases Nat.lt_succ_iff_lt_or_eq.mp hj with hlt | heq
      · show 1 ≤ (st.linkIndexByGroup.set k 0).getD j (-1) ∧
          ((st.links.set 0 (st.links.getD 0 [] ++ [k])).getD
            ((st.linkIndexByGroup.set k 0).getD j (-1)).toNat []).head? = some j
        rw [hlibne j (by omega)]
        obtain ⟨hge, hhead⟩ := h7 j hlt hr hcr
        refine ⟨hge, ?_⟩
        rw [hlinksD _ (by omega)]
        exact hhead
      · subst heq
        exact absurd hroot hr
    · intro j hj hr hcr
      rcases Nat.lt_succ_iff_lt_or_eq.mp hj with hlt | heq
      · show (st.linkIndexByGroup.set k 0).getD j (-1) =
          (st.linkIndexByGroup.set k 0).getD
            (ctx.groups.getD j default).parent_index (-1)
        have hpj : (ctx.groups.getD j default).parent_index < k :=
          lt_trans (hparents j (by omega) hr) hlt
        rw [hlibne j (by omega), hlibne _ (by omega)]
        exact h8 j hlt hr hcr
      · subst heq
        exact absurd hroot hr
  · by_cases hcrk : createsNewLink ctx k = true
    · rw [linkStep_creates ctx st k hroot hcrk]
      have hlibne : ∀ j : Nat, j ≠ k →
          (st.linkIndexByGroup.set k (st.links.length : Int)).getD j (-1) =
            st.linkIndexByGroup.getD j (-1) :=
        fun j hj => getD_set_ne st.linkIndexByGroup k j _ (-1) (fun hh => hj hh.symm)
      have hlibk : (st.linkIndexByGroup.set k (st.links.length : Int)).getD k (-1) =
          (st.links.length : Int) :=
        getD_set_self st.linkIndexByGroup k _ (-1) (by omega)
      have hlen2 : ((st.links ++ [[]]).set st.links.length [k]).length =
          st.links.length + 1 := by
        rw [List.length_set, List.length_append]
        rfl
      have hgetD_new : ((st.links ++ [[]]).set st.links.length [k]).getD
          st.links.length [] = [k] :=
        getD_set_self (st.links ++ [[]]) st.links.length [k] []
          (by rw [List.length_append]; simp)
      have hgetD_old : ∀ i, i < st.links.length →
          ((st.links ++ [[]]).set st.links.length [k]).getD i [] =
            st.links.getD i [] := by
        intro i hi
        rw [getD_set_ne (st.links ++ [[]]) st.links.length i [k] [] (by omega),
          List.getD_append _ _ _ _ hi]
      refine ⟨by rw [hlen2]; omega, by simpa using h2, ?_, ?_, ?_, ?_, ?_, ?_⟩
      · intro j hj
        show (st.linkIndexByGroup.set k (st.links.length : Int)).getD j (-1) = -1
        rw [hlibne j (by omega)]
        exact h3 j (by omega)
      · intro j hj
        show 0 ≤ (st.linkIndexByGroup.set k (st.links.length : Int)).getD j (-1) ∧
          (st.linkIndexByGroup.set k (st.links.length : Int)).getD j (-1) <
            (((st.links ++ [[]]).set st.links.length [k]).length : Int)
        rw [hlen2]
        rcases Nat.lt_succ_iff_lt_or_eq.mp hj with hlt | heq
        · rw [hlibne j (by omega)]
          have := h4 j hlt
          omega
        · subst heq
          rw [hlibk]
          omega
      · intro j hj
        show j ∈ ((st.links ++ [[]]).set st.links.length [k]).getD
          ((st.linkIndexByGroup.set k (st.links.length : Int)).getD j (-1)).toNat []
        rcases Nat.lt_succ_iff_lt_or_eq.mp hj with hlt | heq
        · rw [hlibne j (by omega)]
          have hb := h4 j hlt
          rw [hgetD_old _ (by omega)]
          exact h5 j hlt
        · subst heq
          rw [hlibk, Int.toNat_natCast, hgetD_new]
          exact List.mem_singleton_self _
      · intro j hj hr
        show (st.linkIndexByGroup.set k (st.links.length : Int)).getD j (-1) = 0
        rcases Nat.lt_succ_iff_lt_or_eq.mp hj with hlt | heq
        · rw [hlibne j (by omega)]
          exact h6 j hlt hr
        · subst heq
          exact absurd hr hroot
      · intro j hj hr hcr
        show 1 ≤ (st.linkIndexByGroup.set k (st.links.length : Int)).getD j (-1) ∧
          (((st.links ++ [[]]).set st.links.length [k]).getD
            ((st.linkIndexByGroup.set k (st.links.length : Int)).getD j (-1)).toNat
            []).head? = some j
        rcases Nat.lt_succ_iff_lt_or_eq.mp hj with hlt | heq
        · rw [hlibne j (by omega)]
          obtain ⟨hge, hhead⟩ := h7 j hlt hr hcr
          have hb := h4 j hlt
          refine ⟨hge, ?_⟩
          rw [hgetD_old _ (by omega)]
          exact hhead
        · subst heq
          rw [hlibk]
          refine ⟨by omega, ?_⟩
          rw [Int.toNat_natCast, hgetD_new]
          rfl
      · intro j hj hr hcr
        rcases Nat.lt_succ_iff_lt_or_eq.mp hj with hlt | heq
        · show (st.linkIndexByGroup.set k (st.links.length : Int)).getD j (-1) =
            (st.linkIndexByGroup.set k (st.links.length : Int)).getD
              (ctx.groups.getD j default).parent_index (-1)
          have hpj : (ctx.groups.getD j default).parent_index < k :=
            lt_trans (hparents j (by omega) hr) hlt
          rw [hlibne j (by omega), hlibne _ (by omega)]
          exact h8 j hlt hr hcr
        · subst heq
          exact absurd hcrk (by rw [hcr]; simp)
    · have hcrk2 : createsNewLink ctx k = false := by
        cases hc : createsNewLink ctx k
        · rfl
        · exact absurd hc hcrk
      rw [linkStep_join ctx st k hroot hcrk2]
      have hp := hparents k hk hroot
      have hpb := h4 _ hp
      set pli := st.linkIndexByGroup.getD (ctx.groups.getD k default).parent_index (-1)
        with hpli
      have hidx : pyIdx st.links.length pli = pli.toNat := pyIdx_nonneg _ _ hpb.1
      have hplt : pli.toNat < st.links.length := by omega
      have hlibne : ∀ j : Nat, j ≠ k →
          (st.linkIndexByGroup.set k pli).getD j (-1) =
            st.linkIndexByGroup.getD j (-1) :=
        fun j hj => getD_set_ne st.linkIndexByGroup k j pli (-1) (fun hh => hj hh.symm)
      have hlibk : (st.linkIndexByGroup.set k pli).getD k (-1) = pli :=
        getD_set_self st.linkIndexByGroup k pli (-1) (by omega)
      have hlinksD : ∀ i : Nat, i ≠ pyIdx st.links.length pli →
          (st.links.set (pyIdx st.links.length pli)
            (st.links.getD (pyIdx st.links.length pli) [] ++ [k])).getD i [] =
            st.links.getD i [] :=
        fun i hi => getD_set_ne st.links (pyIdx st.links.length pli) i _ []
          (fun hh => hi hh.symm)
      have hlinksP : (st.links.set (pyIdx st.links.length pli)
          (st.links.getD (pyIdx st.links.length pli) [] ++ [k])).getD
            (pyIdx st.links.length pli) [] =
          st.links.getD (pyIdx st.links.length pli) [] ++ [k] :=
        getD_set_self st.links (pyIdx st.links.length pli) _ [] (by omega)
      refine ⟨?_, by simpa using h2, ?_, ?_, ?_, ?_, ?_, ?_⟩
      · show 1 ≤ (st.links.set _ _).length
        rw [List.length_set]
        exact h1
      · intro j hj
        show (st.linkIndexByGroup.set k pli).getD j (-1) = -1
        rw [hlibne j (by omega)]
        exact h3 j (by omega)
      · intro j hj
        show 0 ≤ (st.linkIndexByGroup.set k pli).getD j (-1) ∧
          (st.linkIndexByGroup.set k pli).getD j (-1) <
            ((st.links.set (pyIdx st.links.length pli)
              (st.links.getD (pyIdx st.links.length pli) [] ++ [k])).length : Int)
        rw [List.length_set]
        rcases Nat.lt_succ_iff_lt_or_eq.mp hj with hlt | heq
        · rw [hlibne j (by omega)]
          exact h4 j hlt
        · subst heq
          rw [hlibk]
          omega
      · intro j hj
        show j ∈ (st.links.set (pyIdx st.links.length pli)
            (st.links.getD (pyIdx st.links.length pli) [] ++ [k])).getD
          ((st.linkIndexByGroup.set k pli).getD j (-1)).toNat []
        rcases Nat.lt_succ_iff_lt_or_eq.mp hj with hlt | heq
        · rw [hlibne j (by omega)]
          by_cases hsame : (st.linkIndexByGroup.getD j (-1)).toNat =
              pyIdx st.links.length pli
          · rw [hsame, hlinksP, ← hsame]
            exact List.mem_append_left _ (h5 j hlt)
          · rw [hlinksD _ hsame]
            exact h5 j hlt
        · subst heq
          rw [hlibk, ← hidx, hlinksP]
          exact List.mem_append_right _ (List.mem_singleton_self _)
      · intro j hj hr
        show (st.linkIndexByGroup.set k pli).getD j (-1) = 0
        rcases Nat.lt_succ_iff_lt_or_eq.mp hj with hlt | heq
        · rw [hlibne j (by omega)]
          exact h6 j hlt hr
        · subst heq
          exact absurd hr hroot
      · intro j hj hr hcr
        show 1 ≤ (st.linkIndexByGroup.set k pli).getD j (-1) ∧
          ((st.links.set (pyIdx st.links.length pli)
            (st.links.getD (pyIdx st.links.length pli) [] ++ [k])).getD
            ((st.linkIndexByGroup.set k pli).getD j (-1)).toNat []).head? = some j
        rcases Nat.lt_succ_iff_lt_or_eq.mp hj with hlt | heq
        · rw [hlibne j (by omega)]
          obtain ⟨hge, hhead⟩ := h7 j hlt hr hcr
          refine ⟨hge, ?_⟩
          by_cases hsame : (st.linkIndexByGroup.getD j (-1)).toNat =
              pyIdx st.links.length pli
          · rw [hsame, hlinksP]
            have hne : st.links.getD (pyIdx st.links.length pli) [] ≠ [] := by
              intro hnil
              have hmem := h5 j hlt
              rw [hsame, hnil] at hmem
              exact absurd hmem (List.not_mem_nil j)
            rw [head_append_singleton _ _ hne, ← hsame]
            exact hhead
          · rw [hlinksD _ hsame]
            exact hhead
        · subst heq
          exact absurd hcrk2 (by rw [hcr]; simp)
      · intro j hj hr hcr
        rcases Nat.lt_succ_iff_lt_or_eq.mp hj with hlt | heq
        · show (st.linkIndexByGroup.set k pli).getD j (-1) =
            (st.linkIndexByGroup.set k pli).getD
              (ctx.groups.getD j default).parent_index (-1)
          have hpj : (ctx.groups.getD j default).parent_index < k :=
            lt_trans (hparents j (by omega) hr) hlt
          rw [hlibne j (by omega), hlibne _ (by omega)]
          exact h8 j hlt hr hcr
        · subst heq
          show (st.linkIndexByGroup.set j pli).getD j (-1) =
            (st.linkIndexByGroup.set j pli).getD
              (ctx.groups.getD j default).parent_index (-1)
          rw [hlibk, hlibne _ (by omega)]


theorem calculateLinks_inv (ctx : PhysCtx)
    (hparents : ∀ j, j < ctx.groups.length →
      (ctx.groups.getD j default).parent_index ≠ 255 →
      (ctx.groups.getD j default).parent_index < j) :
    LinkInv ctx ctx.groups.length (calculateLinks ctx) := by
  rw [calculateLinks]
  suffices h : ∀ m, m ≤ ctx.groups.length →
      LinkInv ctx m ((List.range m).foldl (linkStep ctx)
        { links := [[]]
          linkIndexByGroup := List.replicate ctx.groups.length (-1) }) by
    exact h _ le_rfl
  intro m
  induction m with
  | zero =>
    intro _
    refine ⟨by simp, by simp, ?_, ?_, ?_, ?_, ?_, ?_⟩
    · intro j _
      exact getD_replicate _ _ _
    all_goals intro j hj; omega
  | succ m ih =>
    intro hm
    rw [List.range_succ, List.foldl_append, List.foldl_cons, List.foldl_nil]
    exact linkStep_inv ctx m _ (by omega) hparents (ih (by omega))

/-- C2 (amended): for a physics LOD in which every group has at least one
child, every child's bone tag matches a skeleton bone, and every non-root
group's parent index is smaller than its own index, the link partition built
by `calculate_physics_lod_transforms` puts every parentless group in the root
link 0, makes every joint-forming group (first child's bone with a matching
rotation/translation limit) the first group of a fresh non-root link, and puts
every other group in the link recorded for its parent group. -/
theorem calculate_links_spec (ctx : PhysCtx)
    (hchild : ∀ gi, gi < ctx.groups.length →
      ∃ c ∈ ctx.children, c.group_index = gi)
    (hbone : ∀ c ∈ ctx.children, ∃ b ∈ ctx.bones, b.tag = c.bone_tag)
    (hparents : ∀ gi, gi < ctx.groups.length →
      (ctx.groups.getD gi default).parent_index ≠ 255 →
      (ctx.groups.getD gi default).parent_index < gi) :
    ∀ gi, gi < ctx.groups.length →
      0 ≤ (calculateLinks ctx).linkIndexByGroup.getD gi (-1) ∧
      (calculateLinks ctx).linkIndexByGroup.getD gi (-1) <
        ((calculateLinks ctx).links.length : Int) ∧
      gi ∈ (calculateLinks ctx).links.getD
        ((calculateLinks ctx).linkIndexByGroup.getD gi (-1)).toNat [] ∧
      ((ctx.groups.getD gi default).parent_index = 255 →
        (calculateLinks ctx).linkIndexByGroup.getD gi (-1) = 0 ∧
        gi ∈ (calculateLinks ctx).links.getD 0 []) ∧
      ((ctx.groups.getD gi default).parent_index ≠ 255 →
        createsNewLink ctx gi = true →
        1 ≤ (calculateLinks ctx).linkIndexByGroup.getD gi (-1) ∧
        ((calculateLinks ctx).links.getD
          ((calculateLinks ctx).linkIndexByGroup.getD gi (-1)).toNat []).head? =
          some gi) ∧
      ((ctx.groups.getD gi default).parent_index ≠ 255 →
        createsNewLink ctx gi = false →
        (calculateLinks ctx).linkIndexByGroup.getD gi (-1) =
          (calculateLinks ctx).linkIndexByGroup.getD
            (ctx.groups.getD gi default).parent_index (-1)) := by
  obtain ⟨h1, h2, h3, h4, h5, h6, h7, h8⟩ := calculateLinks_inv ctx hparents
  intro gi hgi
  refine ⟨(h4 gi hgi).1, (h4 gi hgi).2, h5 gi hgi, ?_, h7 gi hgi, h8 gi hgi⟩
  intro hr
  refine ⟨h6 gi hgi hr, ?_⟩
  have hmem := h5 gi hgi
  rw [h6 gi hgi hr] at hmem
  exact hmem

/-- The concrete counterexample context for the original C2 statement: group 2
has the forward parent 3; group 1 forms a joint, so when group 2 is processed
`link_index_by_group[3]` is still -1 and Python`s `links[-1]` appends it to the
joint link instead of its parent's link. -/
def ctxC2ce : PhysCtx :=
  { groups := [⟨255⟩, ⟨0⟩, ⟨3⟩, ⟨255⟩]
    children := [⟨0, 100, 1⟩, ⟨1, 101, 1⟩, ⟨2, 102, 1⟩, ⟨3, 103, 1⟩]
    bones := [⟨100, []⟩, ⟨101, ["LimitRotation"]⟩, ⟨102, []⟩, ⟨103, []⟩]
    rotation_limits := [⟨101⟩]
    translation_limits := []
    bounds := [none, none, none, none]
    unknown_50 := ⟨0, 0, 0⟩ }

/-- Counterexample to C2 as stated: all hypotheses of the claim hold, group 2
has a parent (group 3) and does not start a new link, yet no link contains
both group 2 and its parent group 3. -/
theorem calculate_links_counterexample :
    (∀ gi, gi < ctxC2ce.groups.length →
      ∃ c ∈ ctxC2ce.children, c.group_index = gi) ∧
    (∀ c ∈ ctxC2ce.children, ∃ b ∈ ctxC2ce.bones, b.tag = c.bone_tag) ∧
    (ctxC2ce.groups.getD 2 default).parent_index = 3 ∧
    createsNewLink ctxC2ce 2 = false ∧
    (calculateLinks ctxC2ce).links = [[0, 3], [1, 2]] ∧
    (∀ li, li < (calculateLinks ctxC2ce).links.length →
      ¬(2 ∈ (calculateLinks ctxC2ce).links.getD li [] ∧
        3 ∈ (calculateLinks ctxC2ce).links.getD li [])) := by decide

/-- Concrete context for the C2 witness: a root group and a joint-forming
child group. -/
def ctxC2w : PhysCtx :=
  { groups := [⟨255⟩, ⟨0⟩]
    children := [⟨0, 10, 1⟩, ⟨1, 20, 1⟩]
    bones := [⟨10, []⟩, ⟨20, ["LimitRotation"]⟩]
    rotation_limits := [⟨20⟩]
    translation_limits := []
    bounds := [none, none]
    unknown_50 := ⟨0, 0, 0⟩ }

/-- Witness for C2 (amended) at `ctxC2w`. -/
theorem calculate_links_spec_witness :
    (∀ gi, gi < ctxC2w.groups.length →
      ∃ c ∈ ctxC2w.children, c.group_index = gi) ∧
    (∀ c ∈ ctxC2w.children, ∃ b ∈ ctxC2w.bones, b.tag = c.bone_tag) ∧
    (∀ gi, gi < ctxC2w.groups.length →
      (ctxC2w.groups.getD gi default).parent_index ≠ 255 →
      (ctxC2w.groups.getD gi default).parent_index < gi) ∧
    (∀ gi, gi < ctxC2w.groups.length →
      0 ≤ (calculateLinks ctxC2w).linkIndexByGroup.getD gi (-1) ∧
      (calculateLinks ctxC2w).linkIndexByGroup.getD gi (-1) <
        ((calculateLinks ctxC2w).links.length : Int) ∧
      gi ∈ (calculateLinks ctxC2w).links.getD
        ((calculateLinks ctxC2w).linkIndexByGroup.getD gi (-1)).toNat [] ∧
      ((ctxC2w.groups.getD gi default).parent_index = 255 →
        (calculateLinks ctxC2w).linkIndexByGroup.getD gi (-1) = 0 ∧
        gi ∈ (calculateLinks ctxC2w).links.getD 0 []) ∧
      ((ctxC2w.groups.getD gi default).parent_index ≠ 255 →
        createsNewLink ctxC2w gi = true →
        1 ≤ (calculateLinks ctxC2w).linkIndexByGroup.getD gi (-1) ∧
        ((calculateLinks ctxC2w).links.getD
          ((calculateLinks ctxC2w).linkIndexByGroup.getD gi (-1)).toNat []).head? =
          some gi) ∧
      ((ctxC2w.groups.getD gi default).parent_index ≠ 255 →
        createsNewLink ctxC2w gi = false →
        (calculateLinks ctxC2w).linkIndexByGroup.getD gi (-1) =
          (calculateLinks ctxC2w).linkIndexByGroup.getD
            (ctxC2w.groups.getD gi default).parent_index (-1))) :=
  ⟨by decide, by decide, by decide,
   calculate_links_spec ctxC2w (by decide) (by decide) (by decide)⟩



/-! ## Link centre of gravity (`calculate_physics_lod_transforms`, 554-578)

For every link the loop accumulates `center * mass` and the total mass over
all physics children of the link's groups, divides, then adds the
user-configured unbroken CG offset (`unknown_50`) to the root entry; the root
value is stored in `position_offset` and duplicated into `unknown_40`. -/

/-- `children_by_group[group]`: the `(child_index, child)` pairs of a group. -/
def childrenOfGroup (ctx : PhysCtx) (gi : Nat) : List (Nat × PhysicsChild) :=
  ctx.children.enum.filter (fun ic => ic.2.group_index == gi)

/-- Lines 561-566: the world-space sphere centre of the child's bound, or the
zero vector when the bound slot is `None`. -/
def centerOfChild (ctx : PhysCtx) (childIndex : Nat) : Vec3 :=
  match ctx.bounds.getD childIndex none with
  | none => ⟨0, 0, 0⟩
  | some b => b.composite_transform.transposed.mulVec3 b.sphere_center

/-- The accumulation loop for one link (lines 557-571). -/
def linkMassCG (ctx : PhysCtx) (groupsOfLink : List Nat) : Vec3 × ℚ :=
  groupsOfLink.foldl (fun acc gi =>
    (childrenOfGroup ctx gi).foldl (fun acc2 ic =>
      (acc2.1 + (centerOfChild ctx ic.1).smul ic.2.pristine_mass,
       acc2.2 + ic.2.pristine_mass)) acc) (⟨0, 0, 0⟩, 0)

/-- `links_center_of_gravity` after the per-link division (line 572). -/
def linksCGdivided (ctx : PhysCtx) : List Vec3 :=
  (calculateLinks ctx).links.map (fun gs =>
    let sm := linkMassCG ctx gs
    sm.1.divQ sm.2)

/-- `links_center_of_gravity` after adding the unbroken CG offset to the root
entry (line 575). -/
def linksCenterOfGravity (ctx : PhysCtx) : List Vec3 :=
  let cgs := linksCGdivided ctx
  cgs.set 0 (cgs.getD 0 0 + ctx.unknown_50)

/-- `lod_xml.position_offset` (line 577). -/
def physicsLodPositionOffset (ctx : PhysCtx) : Vec3 :=
  (linksCenterOfGravity ctx).getD 0 0

/-- `lod_xml.unknown_40` (line 578). -/
def physicsLodUnknown40 (ctx : PhysCtx) : Vec3 := physicsLodPositionOffset ctx

/-- All `(child_index, child)` pairs of a link's groups, in loop order. -/
def linkChildList (ctx : PhysCtx) (gs : List Nat) : List (Nat × PhysicsChild) :=
  gs.flatMap (fun gi => childrenOfGroup ctx gi)

theorem foldl_pair_sum {γ : Type} (f : γ → Vec3) (g : γ → ℚ) :
    ∀ (l : List γ) (a : Vec3) (m : ℚ),
      l.foldl (fun acc2 x => (acc2.1 + f x, acc2.2 + g x)) (a, m) =
        (a + (l.map f).sum, m + (l.map g).sum)
  | [], a, m => by simp
  | x :: l, a, m => by
    rw [List.foldl_cons, foldl_pair_sum f g l, List.map_cons, List.map_cons,
      List.sum_cons, List.sum_cons, add_assoc, add_assoc]

theorem linkMassCG_go (ctx : PhysCtx) :
    ∀ (gs : List Nat) (a : Vec3) (m : ℚ),
      gs.foldl (fun acc gi =>
        (childrenOfGroup ctx gi).foldl (fun acc2 ic =>
          (acc2.1 + (centerOfChild ctx ic.1).smul ic.2.pristine_mass,
           acc2.2 + ic.2.pristine_mass)) acc) (a, m) =
        (a + ((linkChildList ctx gs).map
          (fun ic => (centerOfChild ctx ic.1).smul ic.2.pristine_mass)).sum,
         m + ((linkChildList ctx gs).map (fun ic => ic.2.pristine_mass)).sum)
  | [], a, m => by simp [linkChildList]
  | gi :: gs, a, m => by
    rw [List.foldl_cons, foldl_pair_sum, linkMassCG_go ctx gs]
    simp only [linkChildList, List.flatMap_cons, List.map_append, List.sum_append,
      add_assoc]

theorem linkMassCG_eq (ctx : PhysCtx) (gs : List Nat) :
    linkMassCG ctx gs =
      (((linkChildList ctx gs).map
        (fun ic => (centerOfChild ctx ic.1).smul ic.2.pristine_mass)).sum,
       ((linkChildList ctx gs).map (fun ic => ic.2.pristine_mass)).sum) := by
  rw [linkMassCG, linkMassCG_go ctx gs]
  rw [show ((⟨0, 0, 0⟩ : Vec3)) = (0 : Vec3) from rfl, zero_add, zero_add]

theorem calculateLinks_links_nonempty (ctx : PhysCtx) :
    1 ≤ (calculateLinks ctx).links.length := by
  rw [calculateLinks]
  suffices h : ∀ (l : List Nat) (st : LinkState), 1 ≤ st.links.length →
      1 ≤ (l.foldl (linkStep ctx) st).links.length by
    exact h _ _ (by simp)
  intro l
  induction l with
  | nil => intro st h; simpa using h
  | cons x l ih =>
    intro st h
    rw [List.foldl_cons]
    apply ih
    show 1 ≤ (List.set _ _ _).length
    rw [List.length_set]
    by_cases hc : (ctx.groups.getD x default).parent_index ≠ 255 ∧
        createsNewLink ctx x = true
    · rw [if_pos hc, List.length_append]
      omega
    · rw [if_neg hc]
      exact h

theorem linksCGdivided_getD (ctx : PhysCtx) (li : Nat)
    (hli : li < (calculateLinks ctx).links.length) :
    (linksCGdivided ctx).getD li 0 =
      (linkMassCG ctx ((calculateLinks ctx).links.getD li [])).1.divQ
        (linkMassCG ctx ((calculateLinks ctx).links.getD li [])).2 := by
  rw [linksCGdivided,
    List.getD_eq_getElem _ _ (by rw [List.length_map]; exact hli),
    List.getElem_map, List.getD_eq_getElem _ _ hli]

/-- C3: the centre of gravity of every link with positive total pristine mass
is the mass-weighted sum of the link children's bound world sphere centres
divided by the link's total pristine mass, with the configured unbroken-CG
offset added to the root link (index 0) after the division; the root value is
stored in `position_offset` and duplicated into `unknown_40`. -/
theorem link_center_of_gravity_spec (ctx : PhysCtx) (li : Nat)
    (hli : li < (calculateLinks ctx).links.length)
    (hmass : 0 < ((linkChildList ctx ((calculateLinks ctx).links.getD li [])).map
      (fun ic => ic.2.pristine_mass)).sum) :
    (linksCenterOfGravity ctx).getD li 0 =
      (((linkChildList ctx ((calculateLinks ctx).links.getD li [])).map
        (fun ic => (centerOfChild ctx ic.1).smul ic.2.pristine_mass)).sum).divQ
        (((linkChildList ctx ((calculateLinks ctx).links.getD li [])).map
          (fun ic => ic.2.pristine_mass)).sum) +
      (if li = 0 then ctx.unknown_50 else 0) ∧
    physicsLodPositionOffset ctx = (linksCenterOfGravity ctx).getD 0 0 ∧
    physicsLodUnknown40 ctx = physicsLodPositionOffset ctx := by
  refine ⟨?_, rfl, rfl⟩
  have hlen : (linksCGdivided ctx).length = (calculateLinks ctx).links.length := by
    rw [linksCGdivided, List.length_map]
  by_cases h0 : li = 0
  · subst h0
    rw [linksCenterOfGravity, if_pos rfl]
    rw [getD_set_self _ _ _ _ (by rw [hlen]; exact hli)]
    rw [linksCGdivided_getD ctx 0 hli, linkMassCG_eq]
  · rw [linksCenterOfGravity, if_neg h0]
    rw [getD_set_ne _ _ _ _ _ (fun hh => h0 hh.symm)]
    rw [linksCGdivided_getD ctx li hli, linkMassCG_eq, add_zero]

/-- Concrete context for the C3 witness: one root link, two children with
bound centres (0,0,0) and (2,0,0), each of mass 1, offset (0,0,1). -/
def ctxC3w : PhysCtx :=
  { groups := [⟨255⟩]
    children := [⟨0, 10, 1⟩, ⟨0, 20, 1⟩]
    bones := [⟨10, []⟩, ⟨20, []⟩]
    rotation_limits := []
    translation_limits := []
    bounds := [some ⟨Mat4.identity, ⟨0, 0, 0⟩⟩, some ⟨Mat4.identity, ⟨2, 0, 0⟩⟩]
    unknown_50 := ⟨0, 0, 1⟩ }

/-- Witness for C3 at `ctxC3w`: link CG (1,0,0) before the offset and (1,0,1)
after adding it. -/
theorem link_center_of_gravity_spec_witness :
    0 < (calculateLinks ctxC3w).links.length ∧
    0 < ((linkChildList ctxC3w ((calculateLinks ctxC3w).links.getD 0 [])).map
      (fun ic => ic.2.pristine_mass)).sum ∧
    ((linksCenterOfGravity ctxC3w).getD 0 0 =
      (((linkChildList ctxC3w ((calculateLinks ctxC3w).links.getD 0 [])).map
        (fun ic => (centerOfChild ctxC3w ic.1).smul ic.2.pristine_mass)).sum).divQ
        (((linkChildList ctxC3w ((calculateLinks ctxC3w).links.getD 0 [])).map
          (fun ic => ic.2.pristine_mass)).sum) +
      (if 0 = 0 then ctxC3w.unknown_50 else 0) ∧
    physicsLodPositionOffset ctxC3w = (linksCenterOfGravity ctxC3w).getD 0 0 ∧
    physicsLodUnknown40 ctxC3w = physicsLodPositionOffset ctxC3w) ∧
    (((linkChildList ctxC3w ((calculateLinks ctxC3w).links.getD 0 [])).map
        (fun ic => (centerOfChild ctxC3w ic.1).smul ic.2.pristine_mass)).sum).divQ
        (((linkChildList ctxC3w ((calculateLinks ctxC3w).links.getD 0 [])).map
          (fun ic => ic.2.pristine_mass)).sum) = ⟨1, 0, 0⟩ ∧
    (linksCenterOfGravity ctxC3w).getD 0 0 = ⟨1, 0, 1⟩ := by
  have hlinks : (calculateLinks ctxC3w).links = [[0]] := by decide
  have hget : (calculateLinks ctxC3w).links.getD 0 [] = [0] := by
    rw [hlinks]
    rfl
  have hlist : linkChildList ctxC3w [0] =
      [(0, ⟨0, 10, 1⟩), (1, ⟨0, 20, 1⟩)] := by decide
  have hc0 : centerOfChild ctxC3w 0 = ⟨0, 0, 0⟩ := by
    show Mat4.mulVec3 (Mat4.transposed Mat4.identity) ⟨0, 0, 0⟩ = ⟨0, 0, 0⟩
    simp only [Mat4.identity, Mat4.transposed, Mat4.mulVec3, Vec3.mk.injEq]
    norm_num
  have hc1 : centerOfChild ctxC3w 1 = ⟨2, 0, 0⟩ := by
    show Mat4.mulVec3 (Mat4.transposed Mat4.identity) ⟨2, 0, 0⟩ = ⟨2, 0, 0⟩
    simp only [Mat4.identity, Mat4.transposed, Mat4.mulVec3, Vec3.mk.injEq]
    norm_num
  have hmassSum : ((linkChildList ctxC3w ((calculateLinks ctxC3w).links.getD 0 [])).map
      (fun ic => ic.2.pristine_mass)).sum = 2 := by
    rw [hget, hlist]
    simp only [List.map_cons, List.map_nil, List.sum_cons, List.sum_nil]
    norm_num
  have hvecSum : ((linkChildList ctxC3w ((calculateLinks ctxC3w).links.getD 0 [])).map
      (fun ic => (centerOfChild ctxC3w ic.1).smul ic.2.pristine_mass)).sum =
      (⟨2, 0, 0⟩ : Vec3) := by
    rw [hget, hlist]
    simp only [List.map_cons, List.map_nil, List.sum_cons, List.sum_nil]
    rw [hc0, hc1]
    show Vec3.add (Vec3.smul ⟨0, 0, 0⟩ 1) (Vec3.add (Vec3.smul ⟨2, 0, 0⟩ 1) Vec3.zero) =
      (⟨2, 0, 0⟩ : Vec3)
    simp only [Vec3.smul, Vec3.add, Vec3.zero, Vec3.mk.injEq]
    norm_num
  have hdiv : (((linkChildList ctxC3w ((calculateLinks ctxC3w).links.getD 0 [])).map
      (fun ic => (centerOfChild ctxC3w ic.1).smul ic.2.pristine_mass)).sum).divQ
      (((linkChildList ctxC3w ((calculateLinks ctxC3w).links.getD 0 [])).map
        (fun ic => ic.2.pristine_mass)).sum) = ⟨1, 0, 0⟩ := by
    rw [hvecSum, hmassSum]
    simp only [Vec3.divQ, Vec3.mk.injEq]
    norm_num
  have hmass : 0 < ((linkChildList ctxC3w ((calculateLinks ctxC3w).links.getD 0 [])).map
      (fun ic => ic.2.pristine_mass)).sum := by
    rw [hmassSum]
    norm_num
  have hli : 0 < (calculateLinks ctxC3w).links.length := by
    rw [hlinks]
    norm_num
  have hmain := link_center_of_gravity_spec ctxC3w 0 hli hmass
  refine ⟨hli, hmass, hmain, hdiv, ?_⟩
  rw [hmain.1, hdiv, if_pos rfl]
  show Vec3.add ⟨1, 0, 0⟩ ctxC3w.unknown_50 = (⟨1, 0, 1⟩ : Vec3)
  simp only [ctxC3w, Vec3.add, Vec3.mk.injEq]
  norm_num


/-! ## `create_frag_env_cloth` vertex cap (yftexport.py 1280-1299) -/

structure EnvClothResult where
  reindex : ReindexState
  edges : List VerletClothEdge
  packedEdges : List VerletClothEdge
  pinnedVerticesCount : Nat

/-- Modelled from the spec: the constant `CLOTH_MAX_VERTICES` is imported from
the module `cloth.py`, which is not among the sources; the spec only calls it
"a fixed maximum (documented engine limit)", so the limit is taken as a
parameter `maxVertices` here.  The guard itself (lines 1291-1299) is
translated from the source: a mesh with more vertices logs an error and the
function returns `None` (no cloth object, the rest of the fragment export
continues), otherwise the cloth is built from the reindexing, edge
construction and bucketing modelled above. -/
def create_frag_env_cloth (maxVertices : Nat) (pinned : List Bool)
    (positions : List Vec3) (triangles : List ClothMeshTri) :
    Option EnvClothResult :=
  let num_vertices := positions.length
  if num_vertices > maxVertices then none
  else
    let st := reindexVertices pinned positions
    let m2c := st.m2c.map (fun o => o.getD 0)
    let verts := st.verts.map (fun o => o.getD 0)
    let edges := (buildClothEdges pinned m2c verts triangles).1
    some { reindex := st
           edges := edges
           packedEdges := packClothEdges edges
           pinnedVerticesCount := numPinned pinned }

/-- C8: a cloth mesh whose vertex count exceeds the limit is reported and
dropped (`None`) instead of crashing, and a cloth mesh at or below the limit
is not rejected by this check. -/
theorem cloth_vertex_cap_spec (maxVertices : Nat) (pinned : List Bool)
    (positions : List Vec3) (triangles : List ClothMeshTri) :
    (positions.length > maxVertices →
      create_frag_env_cloth maxVertices pinned positions triangles = none) ∧
    (positions.length ≤ maxVertices →
      (create_frag_env_cloth maxVertices pinned positions triangles).isSome = true) := by
  constructor
  · intro h
    rw [create_frag_env_cloth, if_pos h]
  · intro h
    rw [create_frag_env_cloth, if_neg (by omega)]
    rfl

/-- Witness for C8 at the limit 2: three vertices are rejected, two pass. -/
theorem cloth_vertex_cap_spec_witness :
    create_frag_env_cloth 2 [false, false, false]
      [⟨0, 0, 0⟩, ⟨1, 0, 0⟩, ⟨0, 1, 0⟩] [] = none ∧
    (create_frag_env_cloth 2 [false, false] [⟨0, 0, 0⟩, ⟨1, 0, 0⟩] []).isSome = true :=
  ⟨(cloth_vertex_cap_spec 2 [false, false, false]
      [⟨0, 0, 0⟩, ⟨1, 0, 0⟩, ⟨0, 1, 0⟩] []).1 (by norm_num),
   (cloth_vertex_cap_spec 2 [false, false] [⟨0, 0, 0⟩, ⟨1, 0, 0⟩] []).2 (by norm_num)⟩


end Sollumz
